import Mathlib

set_option linter.unusedSectionVars false

/-!
# Verification of the pyleob 2D game engine (src/pyleob/pyleob.py)

Shallow embedding of the engine's data model and operations, with theorems
settling the specification claims about:

* `Rect.intersects` / `Rect.contains` (geometry),
* the collision-layer registry and the per-frame collision sweep
  (`Game2D.calculate_collisions`),
* two-phase (deferred) object removal (`remove_game_object`,
  `remove_game_object_now`, the end-of-frame flush in `__main_update`),
* collision-matrix padding in `Game2D.__init__`.

Python floats enter the verified code paths only through `<` comparisons and
`+`; they are modelled by an arbitrary scalar type `α` with a decidable
linear order and an addition, which in particular covers `ℚ` (the exact
model of the float values) and `ℤ` (used to run the model on concrete
inputs, since `ℚ` arithmetic does not reduce inside the Lean kernel).
Python object identity is modelled by giving every object an `id` field and
by structural equality; registries hold the object values, matching the
source's use of default (identity-based) equality in `in` / `list.remove`.
Game-code callbacks (`update`, `on_collision`) are modelled as engine-state
no-ops except where a claim is about a callback's engine-visible effect, in
which case the sweep is parameterised by an explicit handler-effect function
(`calculate_collisions_eff`).
-/

namespace Pyleob

variable {α : Type} [LinearOrder α] [Add α]

/-- `Vector2` from pyleob: a 2-dimensional point or vector (x, y). -/
structure Vector2 (α : Type) where
  x : α
  y : α
deriving DecidableEq

/-- `Rect` from pyleob: a rectangle with top-left corner `pos` and `size`. -/
structure Rect (α : Type) where
  pos : Vector2 α
  size : Vector2 α
deriving DecidableEq

/-- `Rect.left`: the x-value of the left edge (`self.pos.x`). -/
def Rect.left (r : Rect α) : α := r.pos.x

/-- `Rect.right`: the x-value of the right edge (`self.pos.x + self.size.x`). -/
def Rect.right (r : Rect α) : α := r.pos.x + r.size.x

/-- `Rect.top`: the y-value of the top edge (`self.pos.y`). -/
def Rect.top (r : Rect α) : α := r.pos.y

/-- `Rect.bottom`: the y-value of the bottom edge (`self.pos.y + self.size.y`). -/
def Rect.bottom (r : Rect α) : α := r.pos.y + r.size.y

/-- `Rect.intersects` from pyleob:
`self.left < other.right and self.right > other.left and
 self.top < other.bottom and self.bottom > other.top`. -/
def Rect.intersects (self other : Rect α) : Bool :=
  decide (self.left < other.right) && decide (self.right > other.left) &&
  decide (self.top < other.bottom) && decide (self.bottom > other.top)

/-- `Rect.contains` from pyleob:
`other.right < self.right and other.left > self.left and
 other.top > self.top and other.bottom < self.bottom`. -/
def Rect.contains (self other : Rect α) : Bool :=
  decide (other.right < self.right) && decide (other.left > self.left) &&
  decide (other.top > self.top) && decide (other.bottom < self.bottom)

theorem Rect.intersects_eq_true_iff (a b : Rect α) :
    a.intersects b = true ↔
      a.left < b.right ∧ b.left < a.right ∧ a.top < b.bottom ∧ b.top < a.bottom := by
  simp [Rect.intersects, and_assoc]

theorem Rect.contains_eq_true_iff (a b : Rect α) :
    a.contains b = true ↔
      b.right < a.right ∧ a.left < b.left ∧ a.top < b.top ∧ b.bottom < a.bottom := by
  simp [Rect.contains, and_assoc]

/-- A point lies strictly inside a rect (in the interior of the rect). -/
def strictlyInside (p : Vector2 α) (r : Rect α) : Prop :=
  r.left < p.x ∧ p.x < r.right ∧ r.top < p.y ∧ p.y < r.bottom

/-- C4: for two Rects that abut along an edge (e.g. `A.right == B.left`),
`intersects` returns false; if the interiors overlap (they share a common
interior point) it returns true; and `intersects` is symmetric. -/
theorem rect_intersects_strict_and_symmetric (a b : Rect α) :
    ((a.right = b.left ∨ b.right = a.left ∨ a.bottom = b.top ∨ b.bottom = a.top) →
      a.intersects b = false) ∧
    ((∃ p : Vector2 α, strictlyInside p a ∧ strictlyInside p b) →
      a.intersects b = true) ∧
    a.intersects b = b.intersects a := by
  refine ⟨?_, ?_, ?_⟩
  · intro h
    rw [← Bool.not_eq_true, Rect.intersects_eq_true_iff]
    intro ⟨h1, h2, h3, h4⟩
    rcases h with h | h | h | h
    · rw [h] at h2; exact lt_irrefl _ h2
    · rw [h] at h1; exact lt_irrefl _ h1
    · rw [h] at h4; exact lt_irrefl _ h4
    · rw [h] at h3; exact lt_irrefl _ h3
  · rintro ⟨p, ⟨ha1, ha2, ha3, ha4⟩, ⟨hb1, hb2, hb3, hb4⟩⟩
    rw [Rect.intersects_eq_true_iff]
    exact ⟨lt_trans ha1 hb2, lt_trans hb1 ha2, lt_trans ha3 hb4, lt_trans hb3 ha4⟩
  · rcases hab : a.intersects b with _ | _
    · rw [eq_comm, ← Bool.not_eq_true, Rect.intersects_eq_true_iff]
      rw [← Bool.not_eq_true, Rect.intersects_eq_true_iff] at hab
      intro ⟨h1, h2, h3, h4⟩
      exact hab ⟨h2, h1, h4, h3⟩
    · rw [Rect.intersects_eq_true_iff] at hab
      obtain ⟨h1, h2, h3, h4⟩ := hab
      rw [eq_comm, Rect.intersects_eq_true_iff]
      exact ⟨h2, h1, h4, h3⟩

/-- Witness for C4 at concrete rational rects: `⟨(0,0),(1,1)⟩` abuts
`⟨(1,0),(1,1)⟩` on its right edge (no intersection), and `⟨(0,0),(2,2)⟩`
shares interior point `(3/2, 3/2)` with `⟨(1,1),(2,2)⟩`. -/
theorem rect_intersects_strict_and_symmetric_witness :
    (Rect.mk (α := ℚ) ⟨0, 0⟩ ⟨1, 1⟩).intersects (Rect.mk ⟨1, 0⟩ ⟨1, 1⟩) = false ∧
    (Rect.mk (α := ℚ) ⟨0, 0⟩ ⟨2, 2⟩).intersects (Rect.mk ⟨1, 1⟩ ⟨2, 2⟩) = true := by
  constructor
  · exact (rect_intersects_strict_and_symmetric _ _).1
      (Or.inl (by norm_num [Rect.right, Rect.left]))
  · exact (rect_intersects_strict_and_symmetric _ _).2.1
      ⟨⟨3/2, 3/2⟩, by norm_num [strictlyInside, Rect.left, Rect.right, Rect.top, Rect.bottom],
        by norm_num [strictlyInside, Rect.left, Rect.right, Rect.top, Rect.bottom]⟩

/-- C8: `contains` returns true iff all four strict inequalities hold, and in
particular returns false whenever the inner rect touches an edge of the outer
one, even if it is (weakly) fully inside it. -/
theorem rect_contains_strict (a b : Rect α) :
    (a.contains b = true ↔
      b.right < a.right ∧ a.left < b.left ∧ a.top < b.top ∧ b.bottom < a.bottom) ∧
    ((a.left ≤ b.left ∧ b.right ≤ a.right ∧ a.top ≤ b.top ∧ b.bottom ≤ a.bottom) →
      (b.right = a.right ∨ b.left = a.left ∨ b.top = a.top ∨ b.bottom = a.bottom) →
      a.contains b = false) := by
  refine ⟨Rect.contains_eq_true_iff a b, ?_⟩
  intro _ h
  rw [← Bool.not_eq_true, Rect.contains_eq_true_iff]
  intro ⟨h1, h2, h3, h4⟩
  rcases h with h | h | h | h
  · rw [h] at h1; exact lt_irrefl _ h1
  · rw [h] at h2; exact lt_irrefl _ h2
  · rw [h] at h3; exact lt_irrefl _ h3
  · rw [h] at h4; exact lt_irrefl _ h4

/-- Witness for C8: the rational rect `⟨(0,0),(2,2)⟩` weakly contains
`⟨(0,0.5),(1,1)⟩`, which touches its left edge, and `contains` rejects it. -/
theorem rect_contains_strict_witness :
    (Rect.mk (α := ℚ) ⟨0, 0⟩ ⟨2, 2⟩).contains (Rect.mk ⟨0, 1/2⟩ ⟨1, 1⟩) = false := by
  exact (rect_contains_strict _ _).2
    (by norm_num [Rect.left, Rect.right, Rect.top, Rect.bottom])
    (Or.inr (Or.inl (by norm_num [Rect.left])))

/-! ## Engine data model

A `Drawable` is modelled by its identity, position and size (the fields the
engine reads: `get_rect`, the `active` propagation target, and the draw-pass
sort key).  A `GameObject` is an entity owning one drawable and carrying a
`collision_layer`.  The mutable `active` flags live in the engine state
(`objActive` / `drwActive`, keyed by identity), because Python mutates the
flag through shared references. -/

/-- The engine-visible data of a pyleob `Drawable`: identity, `pos`, `size`. -/
structure DrawableM (α : Type) where
  id : ℕ
  pos : Vector2 α
  size : Vector2 α
deriving DecidableEq

/-- `Drawable.get_rect`: `Rect(self.pos, self.size)`. -/
def DrawableM.get_rect (d : DrawableM α) : Rect α := ⟨d.pos, d.size⟩

/-- The engine-visible data of a pyleob `GameObject`: identity, its owned
`drawable`, and its `collision_layer` (sentinel `-1` = no collision). -/
structure GameObject (α : Type) where
  id : ℕ
  drawable : DrawableM α
  collision_layer : ℤ
deriving DecidableEq

/-- `GameObject.get_collider`: `self.drawable.get_rect()`. -/
def GameObject.get_collider (g : GameObject α) : Rect α := g.drawable.get_rect

/-- `COLLISION_MATRIX_DEPTH = 8`. -/
def COLLISION_MATRIX_DEPTH : ℕ := 8

/-- The mutable state of a `Game2D` instance: the three registries
(`entities`, `drawables`, `entities_by_collision_layer` — the latter a dict
modelled as an association list with unique keys), the deferred-removal queue,
the collision matrix, and the `active` flags of objects and drawables. -/
structure Game2D (α : Type) where
  entities : List (GameObject α)
  drawables : List (DrawableM α)
  buckets : List (ℤ × List (GameObject α))
  game_objects_to_remove : List (GameObject α)
  collision_matrix : List ℕ
  objActive : ℕ → Bool
  drwActive : ℕ → Bool

/-- Matrix padding in `Game2D.__init__`: if the supplied matrix is shorter
than `COLLISION_MATRIX_DEPTH`, zeroes are appended to fill it. -/
def pad_collision_matrix (m : List ℕ) : List ℕ :=
  if m.length < COLLISION_MATRIX_DEPTH then
    m ++ List.replicate (COLLISION_MATRIX_DEPTH - m.length) 0
  else m

/-- A freshly constructed `Game2D` (`__init__`): empty registries and queue,
padded collision matrix, every component initially active. -/
def mkGame2D (collisionMatrix : List ℕ) : Game2D α where
  entities := []
  drawables := []
  buckets := []
  game_objects_to_remove := []
  collision_matrix := pad_collision_matrix collisionMatrix
  objActive := fun _ => true
  drwActive := fun _ => true

/-- `Game2D.add_entity`: `self.entities.append(entity)`. -/
def add_entity (st : Game2D α) (g : GameObject α) : Game2D α :=
  { st with entities := st.entities ++ [g] }

/-- `Game2D.remove_entity`:
`if entity in self.entities: self.entities.remove(entity)`. -/
def remove_entity (st : Game2D α) (g : GameObject α) : Game2D α :=
  if g ∈ st.entities then { st with entities := st.entities.erase g } else st

/-- `Game2D.add_drawable`: `self.drawables.append(drawable)`. -/
def add_drawable (st : Game2D α) (d : DrawableM α) : Game2D α :=
  { st with drawables := st.drawables ++ [d] }

/-- `Game2D.remove_drawable`:
`if drawable in self.drawables: self.drawables.remove(drawable)`. -/
def remove_drawable (st : Game2D α) (d : DrawableM α) : Game2D α :=
  if d ∈ st.drawables then { st with drawables := st.drawables.erase d } else st

/-- Dict mutation in `Game2D.__add_game_object_to_collision_layer`: create
the key with an empty list if absent, then append the object to the list. -/
def bucketAppend (bs : List (ℤ × List (GameObject α))) (l : ℤ) (g : GameObject α) :
    List (ℤ × List (GameObject α)) :=
  match bs.lookup l with
  | none => bs ++ [(l, [g])]
  | some _ => bs.map fun p => if p.1 = l then (p.1, p.2 ++ [g]) else p

/-- Dict mutation `self.entities_by_collision_layer[layer].remove(game_object)`:
remove the first occurrence from the list stored at key `layer`. -/
def bucketRemove (bs : List (ℤ × List (GameObject α))) (l : ℤ) (g : GameObject α) :
    List (ℤ × List (GameObject α)) :=
  bs.map fun p => if p.1 = l then (p.1, p.2.erase g) else p

/-- `Game2D.__add_game_object_to_collision_layer(game_object, layer)`. -/
def add_game_object_to_collision_layer_raw (st : Game2D α) (g : GameObject α)
    (layer : ℤ) : Game2D α :=
  { st with buckets := bucketAppend st.buckets layer g }

/-- `Game2D.add_game_object_to_collision_layer`: only acts when
`game_object.collision_layer >= 0`. -/
def add_game_object_to_collision_layer (st : Game2D α) (g : GameObject α) : Game2D α :=
  if 0 ≤ g.collision_layer then
    add_game_object_to_collision_layer_raw st g g.collision_layer
  else st

/-- `Game2D.remove_game_object_from_collision_layer`: when the layer is `>= 0`
it indexes `self.entities_by_collision_layer[layer]` without guarding against
a missing key — a missing key raises `KeyError`, modelled as `none`. -/
def remove_game_object_from_collision_layer (st : Game2D α) (g : GameObject α) :
    Option (Game2D α) :=
  if 0 ≤ g.collision_layer then
    match st.buckets.lookup g.collision_layer with
    | none => none
    | some xs =>
      some (if g ∈ xs then
        { st with buckets := bucketRemove st.buckets g.collision_layer g }
      else st)
  else some st

/-- `Game2D.add_game_object`: add as entity, add the drawable, add to the
collision layer (in that order). -/
def add_game_object (st : Game2D α) (g : GameObject α) : Game2D α :=
  add_game_object_to_collision_layer
    (add_drawable (add_entity st g) g.drawable) g

/-- `GameObject.set_active`: sets the object's own flag and propagates the
value to its owned drawable. -/
def set_active_game_object (st : Game2D α) (g : GameObject α) (val : Bool) : Game2D α :=
  { st with
    objActive := fun n => if n = g.id then val else st.objActive n
    drwActive := fun n => if n = g.drawable.id then val else st.drwActive n }

/-- `Game2D.remove_game_object`: deactivate the object (which also
deactivates its drawable) and enqueue it for end-of-frame removal.  The three
registries are not touched. -/
def remove_game_object (st : Game2D α) (g : GameObject α) : Game2D α :=
  let st' := set_active_game_object st g false
  { st' with game_objects_to_remove := st'.game_objects_to_remove ++ [g] }

/-- `Game2D.remove_game_object_now`: remove the drawable, remove the entity,
then remove from the collision layer (which may raise `KeyError`). -/
def remove_game_object_now (st : Game2D α) (g : GameObject α) : Option (Game2D α) :=
  remove_game_object_from_collision_layer
    (remove_entity (remove_drawable st g.drawable) g) g

/-- `Game2D.get_mask_value_for_layer`: `1 << layer`. -/
def get_mask_value_for_layer (layer : ℕ) : ℕ := 1 <<< layer

/-- `Game2D.collision_enabled_between_layers`:
`self.collision_matrix[layer1] & (1 << layer2) != 0`.  The sweep only calls
this with `layer1 < 8` on a matrix padded to length at least 8, so the list
index is modelled with `getD`. -/
def collision_enabled_between_layers (m : List ℕ) (layer1 layer2 : ℕ) : Bool :=
  decide (m.getD layer1 0 &&& get_mask_value_for_layer layer2 ≠ 0)

/-- `Game2D.get_entities_by_collision_layer`: the bucket stored for `layer`,
or the empty list when the key is absent. -/
def get_entities_by_collision_layer (st : Game2D α) (layer : ℤ) : List (GameObject α) :=
  (st.buckets.lookup layer).getD []

/-- The ordered layer-index pairs visited by `Game2D.calculate_collisions`:
`(i, j)` for `i in range(8)`, `j in range(i, 8)`. -/
def layerPairs : List (ℕ × ℕ) :=
  (List.range COLLISION_MATRIX_DEPTH).flatMap fun i =>
    (List.range' i (COLLISION_MATRIX_DEPTH - i)).map fun j => (i, j)

/-- The sweep's per-hit condition, from `calculate_collisions`:
`ob1 != ob2 and ob1.get_collider().intersects(ob2.get_collider())`. -/
def hitCond (o1 o2 : GameObject α) : Prop :=
  o1 ≠ o2 ∧ o1.get_collider.intersects o2.get_collider

instance (o1 o2 : GameObject α) : Decidable (hitCond o1 o2) := by
  unfold hitCond; infer_instance

/-- The `on_collision` invocations produced while `calculate_collisions`
processes one layer pair `(i, j)`: when the matrix enables the pair, every
ordered pair `(ob1, ob2)` from the two buckets with `ob1 != ob2` and
intersecting colliders yields `ob1.on_collision(ob2)` then
`ob2.on_collision(ob1)`.  An invocation is recorded as
`(receiver, argument)`. -/
def pairEvents (st : Game2D α) (p : ℕ × ℕ) : List (GameObject α × GameObject α) :=
  if collision_enabled_between_layers st.collision_matrix p.1 p.2 then
    (get_entities_by_collision_layer st p.1).flatMap fun ob1 =>
      (get_entities_by_collision_layer st p.2).flatMap fun ob2 =>
        if hitCond ob1 ob2 then
          [(ob1, ob2), (ob2, ob1)]
        else []
  else []

/-- The full ordered list of `on_collision` invocations of one run of
`Game2D.calculate_collisions`, as `(receiver, argument)` pairs.  (Callback
bodies are modelled as engine-state no-ops here; `calculate_collisions_eff`
below threads an explicit handler effect instead.) -/
def calculate_collisions_events (st : Game2D α) : List (GameObject α × GameObject α) :=
  layerPairs.flatMap (pairEvents st)

/-- The entity-update pass of `Game2D.__main_update`: every registered entity
whose `active` flag is set receives `update`, in registration order.  The log
records the ids of the entities updated. -/
def entity_update_log (st : Game2D α) : List ℕ :=
  (st.entities.filter fun g => st.objActive g.id).map GameObject.id

/-- The draw pass of `Game2D.__main_draw`: drawables are sorted by ascending
`pos.y` and every drawable whose `active` flag is set is drawn.  The log
records the ids of the drawables drawn. -/
def draw_log (st : Game2D α) : List ℕ :=
  ((st.drawables.mergeSort fun d1 d2 => decide (d1.pos.y ≤ d2.pos.y)).filter
    fun d => st.drwActive d.id).map DrawableM.id

/-- The end-of-frame loop of `Game2D.__main_update`:
`for obj in self.game_objects_to_remove: self.remove_game_object_now(obj)`. -/
def flush_removals_aux : List (GameObject α) → Game2D α → Option (Game2D α)
  | [], st => some st
  | g :: gs, st =>
    match remove_game_object_now st g with
    | none => none
    | some st' => flush_removals_aux gs st'

/-- The end-of-frame removal flush: process the queue, then clear it
(`self.game_objects_to_remove = []`). -/
def flush_removals (st : Game2D α) : Option (Game2D α) :=
  (flush_removals_aux st.game_objects_to_remove st).map
    fun st' => { st' with game_objects_to_remove := [] }

/-! ## Concrete demonstration states (scalars instantiated at `ℤ`) -/

/-- A demo object on collision layer 0 with collider `[0,2] × [0,2]`. -/
def dA : GameObject ℤ := ⟨1, ⟨101, ⟨0, 0⟩, ⟨2, 2⟩⟩, 0⟩

/-- A demo object on collision layer 0 with collider `[1,3] × [0,2]`,
overlapping `dA`. -/
def dB : GameObject ℤ := ⟨2, ⟨102, ⟨1, 0⟩, ⟨2, 2⟩⟩, 0⟩

/-- A demo state: fresh engine with self-colliding layer 0 (`matrix [1]`),
with `dA` and `dB` registered. -/
def demoState : Game2D ℤ := add_game_object (add_game_object (mkGame2D [1]) dA) dB

/-- A demo state with only `dA` registered (matrix enabling layer 0 with
itself), used to exercise operations on objects that are *not* registered. -/
def singleState : Game2D ℤ := add_game_object (mkGame2D [1]) dA

/-! ## Association-list (Python dict) lemmas -/

theorem lookup_mem {bs : List (ℤ × List (GameObject α))} {l : ℤ}
    {xs : List (GameObject α)} (h : bs.lookup l = some xs) : (l, xs) ∈ bs := by
  induction bs with
  | nil => simp at h
  | cons p t ih =>
    obtain ⟨k, v⟩ := p
    rw [List.lookup_cons] at h
    rcases hk : l == k with _ | _
    · rw [hk] at h
      exact List.mem_cons_of_mem _ (ih h)
    · rw [hk] at h
      obtain rfl := eq_of_beq hk
      obtain rfl : v = xs := by simpa using h
      exact List.mem_cons_self _ _

theorem lookup_map_entry (bs : List (ℤ × List (GameObject α))) (l l' : ℤ)
    (F : List (GameObject α) → List (GameObject α)) :
    ((bs.map fun p => if p.1 = l then (p.1, F p.2) else p).lookup l') =
      (bs.lookup l').map fun xs => if l' = l then F xs else xs := by
  induction bs with
  | nil => simp
  | cons p t ih =>
    obtain ⟨k, v⟩ := p
    have hhead : (if (k, v).1 = l then ((k, v).1, F (k, v).2) else (k, v)) =
        (k, if k = l then F v else v) := by
      by_cases hkl : k = l <;> simp [hkl]
    rw [List.map_cons, hhead, List.lookup_cons, List.lookup_cons]
    rcases hk : l' == k with _ | _
    · exact ih
    · obtain rfl := eq_of_beq hk
      by_cases hkl : l' = l <;> simp [hkl]

theorem lookup_append_single_none {bs : List (ℤ × List (GameObject α))} {l : ℤ}
    (v : List (GameObject α)) (h : bs.lookup l = none) :
    (bs ++ [(l, v)]).lookup l = some v := by
  induction bs with
  | nil => simp [List.lookup_cons]
  | cons p t ih =>
    obtain ⟨k, u⟩ := p
    rw [List.lookup_cons] at h
    rw [List.cons_append, List.lookup_cons]
    rcases hk : l == k with _ | _
    · rw [hk] at h
      exact ih h
    · rw [hk] at h
      exact absurd h (by simp)

theorem lookup_append_single_ne {bs : List (ℤ × List (GameObject α))} {l l' : ℤ}
    (v : List (GameObject α)) (h : l' ≠ l) :
    (bs ++ [(l, v)]).lookup l' = bs.lookup l' := by
  induction bs with
  | nil => simp [List.lookup_cons, beq_false_of_ne h]
  | cons p t ih =>
    obtain ⟨k, u⟩ := p
    rw [List.cons_append, List.lookup_cons, List.lookup_cons]
    rcases hk : l' == k with _ | _
    · exact ih
    · rfl

/-- The bucket stored at the key being appended to: the old list (empty if
the key was absent) with the object appended. -/
theorem lookup_bucketAppend_self (bs : List (ℤ × List (GameObject α))) (l : ℤ)
    (g : GameObject α) :
    (bucketAppend bs l g).lookup l = some ((bs.lookup l).getD [] ++ [g]) := by
  unfold bucketAppend
  rcases h : bs.lookup l with _ | xs
  · simp [lookup_append_single_none _ h]
  · have hm := lookup_map_entry bs l l (fun xs => xs ++ [g])
    simp only [if_pos rfl] at hm
    simp [hm, h]

/-- Buckets at other keys are untouched by `bucketAppend`. -/
theorem lookup_bucketAppend_ne (bs : List (ℤ × List (GameObject α))) {l l' : ℤ}
    (g : GameObject α) (h : l' ≠ l) :
    (bucketAppend bs l g).lookup l' = bs.lookup l' := by
  unfold bucketAppend
  rcases hl : bs.lookup l with _ | xs
  · simp [lookup_append_single_ne _ h]
  · have hm := lookup_map_entry bs l l' (fun xs => xs ++ [g])
    simp only [if_neg h] at hm
    simp [hm]

/-- `bucketRemove` erases the object from the bucket at the given key and
leaves every other bucket untouched. -/
theorem lookup_bucketRemove (bs : List (ℤ × List (GameObject α))) (l l' : ℤ)
    (g : GameObject α) :
    (bucketRemove bs l g).lookup l' =
      (bs.lookup l').map fun xs => if l' = l then xs.erase g else xs := by
  unfold bucketRemove
  exact lookup_map_entry bs l l' (fun xs => xs.erase g)

/-! ## Registries left untouched by unrelated operations -/

theorem buckets_remove_entity (st : Game2D α) (g : GameObject α) :
    (remove_entity st g).buckets = st.buckets := by
  unfold remove_entity; split <;> rfl

theorem buckets_remove_drawable (st : Game2D α) (d : DrawableM α) :
    (remove_drawable st d).buckets = st.buckets := by
  unfold remove_drawable; split <;> rfl

theorem entities_remove_drawable (st : Game2D α) (d : DrawableM α) :
    (remove_drawable st d).entities = st.entities := by
  unfold remove_drawable; split <;> rfl

theorem drawables_remove_entity (st : Game2D α) (g : GameObject α) :
    (remove_entity st g).drawables = st.drawables := by
  unfold remove_entity; split <;> rfl

/-! ## Well-formedness of the collision-layer index

A state reachable through the public registration API has buckets whose keys
are distinct (Python dict), whose lists are duplicate-free, and whose members
carry exactly the bucket's layer. -/

/-- Well-formedness of `entities_by_collision_layer`. -/
def bucketsWF (st : Game2D α) : Prop :=
  (st.buckets.map Prod.fst).Nodup ∧
  ∀ p ∈ st.buckets, p.2.Nodup ∧ ∀ g ∈ p.2, g.collision_layer = p.1

instance (st : Game2D α) : Decidable (bucketsWF st) := by
  unfold bucketsWF; infer_instance

theorem mem_get_entities {st : Game2D α} {l : ℤ} {x : GameObject α}
    (h : x ∈ get_entities_by_collision_layer st l) :
    ∃ xs, st.buckets.lookup l = some xs ∧ x ∈ xs := by
  unfold get_entities_by_collision_layer at h
  rcases hl : st.buckets.lookup l with _ | xs
  · rw [hl] at h; simp at h
  · rw [hl] at h; exact ⟨xs, rfl, by simpa using h⟩

theorem layer_of_mem_bucket {st : Game2D α} (wf : bucketsWF st) {l : ℤ}
    {x : GameObject α} (h : x ∈ get_entities_by_collision_layer st l) :
    x.collision_layer = l := by
  obtain ⟨xs, hl, hx⟩ := mem_get_entities h
  exact (wf.2 _ (lookup_mem hl)).2 x hx

/-! ## Membership in the collision-event log -/

/-- The layer pairs visited by the sweep are exactly `(i, j)` with
`i ≤ j < 8`. -/
theorem mem_layerPairs {p : ℕ × ℕ} :
    p ∈ layerPairs ↔ p.1 ≤ p.2 ∧ p.2 < COLLISION_MATRIX_DEPTH := by
  obtain ⟨i, j⟩ := p
  simp only [layerPairs, List.mem_flatMap, List.mem_map, List.mem_range, List.mem_range'_1,
    Prod.mk.injEq]
  constructor
  · rintro ⟨i', hi', j', ⟨hj1, hj2⟩, rfl, rfl⟩
    omega
  · rintro ⟨hij, hj⟩
    exact ⟨i, by omega, j, ⟨hij, by omega⟩, rfl, rfl⟩

/-- Both participants of any recorded `on_collision` invocation come from the
buckets of an enabled layer pair `(i, j)` with `i ≤ j < 8`. -/
theorem mem_events {st : Game2D α} {x y : GameObject α}
    (h : (x, y) ∈ calculate_collisions_events st) :
    ∃ i j : ℕ, i ≤ j ∧ j < COLLISION_MATRIX_DEPTH ∧
      collision_enabled_between_layers st.collision_matrix i j = true ∧
      ((x ∈ get_entities_by_collision_layer st i ∧
        y ∈ get_entities_by_collision_layer st j) ∨
       (y ∈ get_entities_by_collision_layer st i ∧
        x ∈ get_entities_by_collision_layer st j)) := by
  unfold calculate_collisions_events at h
  obtain ⟨p, hp, hmem⟩ := List.mem_flatMap.mp h
  obtain ⟨hij, hj⟩ := mem_layerPairs.mp hp
  refine ⟨p.1, p.2, hij, hj, ?_⟩
  unfold pairEvents at hmem
  rcases hen : collision_enabled_between_layers st.collision_matrix p.1 p.2 with _ | _
  · rw [hen] at hmem; simp at hmem
  · rw [hen] at hmem
    simp only [if_true] at hmem
    obtain ⟨o1, ho1, hmem⟩ := List.mem_flatMap.mp hmem
    obtain ⟨o2, ho2, hmem⟩ := List.mem_flatMap.mp hmem
    refine ⟨rfl, ?_⟩
    split at hmem
    · simp only [List.mem_cons, List.not_mem_nil, or_false, Prod.mk.injEq] at hmem
      rcases hmem with ⟨rfl, rfl⟩ | ⟨rfl, rfl⟩
      · exact Or.inl ⟨ho1, ho2⟩
      · exact Or.inr ⟨ho1, ho2⟩
    · simp at hmem

/-- In a well-formed state, both participants of any recorded collision
callback have a collision layer inside `[0, 8)`. -/
theorem mem_events_layer_range {st : Game2D α} (wf : bucketsWF st) {x y : GameObject α}
    (h : (x, y) ∈ calculate_collisions_events st) :
    (0 ≤ x.collision_layer ∧ x.collision_layer < 8) ∧
      (0 ≤ y.collision_layer ∧ y.collision_layer < 8) := by
  obtain ⟨i, j, hij, hj, _, hor⟩ := mem_events h
  have hj8 : j < 8 := hj
  rcases hor with ⟨hx, hy⟩ | ⟨hy, hx⟩
  · have h1 := layer_of_mem_bucket wf hx
    have h2 := layer_of_mem_bucket wf hy
    constructor <;> constructor <;> omega
  · have h1 := layer_of_mem_bucket wf hx
    have h2 := layer_of_mem_bucket wf hy
    constructor <;> constructor <;> omega

/-! ## Claim C6: removal of unregistered objects and double registration -/

/-- C6 (amended): removing an entity or drawable that is not registered is a
silent no-op (the state is returned unchanged, no assertion fires);
double-registering an entity silently appends a second occurrence; and
removing an unregistered game object is likewise a silent no-op provided its
layer bucket exists (the code raises no `InvariantViolation` anywhere). -/
theorem unregistered_ops_are_silent (st : Game2D α) (g : GameObject α) (d : DrawableM α) :
    (g ∉ st.entities → remove_entity st g = st) ∧
    (d ∉ st.drawables → remove_drawable st d = st) ∧
    ((add_entity (add_entity st g) g).entities.count g = st.entities.count g + 2) ∧
    (0 ≤ g.collision_layer → ∀ xs, st.buckets.lookup g.collision_layer = some xs →
      g ∉ xs → g ∉ st.entities → g.drawable ∉ st.drawables →
      remove_game_object_now st g = some st) := by
  refine ⟨?_, ?_, ?_, ?_⟩
  · intro h
    unfold remove_entity
    rw [if_neg h]
  · intro h
    unfold remove_drawable
    rw [if_neg h]
  · simp [add_entity, List.count_append]
  · intro hl xs hxs hgxs hge hgd
    unfold remove_game_object_now
    have h1 : remove_drawable st g.drawable = st := by
      unfold remove_drawable; rw [if_neg hgd]
    have h2 : remove_entity st g = st := by
      unfold remove_entity; rw [if_neg hge]
    rw [h1, h2]
    unfold remove_game_object_from_collision_layer
    rw [if_pos hl, hxs]
    exact congrArg some (if_neg hgxs)

/-- C6 counterexample: on a fresh engine, removing the never-registered `dA`
silently returns the state unchanged (no assertion, no error), and adding it
twice silently leaves two registrations — refuting the claim that these
raise an `InvariantViolation`. -/
theorem unregistered_ops_counterexample :
    remove_entity (mkGame2D []) dA = mkGame2D [] ∧
    remove_drawable (mkGame2D []) dA.drawable = mkGame2D [] ∧
    (add_entity (add_entity (mkGame2D []) dA) dA).entities.count dA = 2 := by
  refine ⟨rfl, rfl, by decide⟩

/-- Witness for C6 (amended) at concrete inputs: `dB` is unregistered in
`singleState` and all four conclusions hold there. -/
theorem unregistered_ops_are_silent_witness :
    remove_entity singleState dB = singleState ∧
    remove_drawable singleState dB.drawable = singleState ∧
    (add_entity (add_entity singleState dB) dB).entities.count dB =
      singleState.entities.count dB + 2 ∧
    remove_game_object_now singleState dB = some singleState := by
  obtain ⟨h1, h2, h3, h4⟩ := unregistered_ops_are_silent singleState dB dB.drawable
  exact ⟨h1 (by decide), h2 (by decide), h3,
    h4 (by decide) [dA] (by decide) (by decide) (by decide) (by decide)⟩

/-! ## Claim C10: KeyError in remove_game_object_from_collision_layer -/

/-- C10: removing a game object with layer `>= 0` while its layer bucket does
not exist hits the unguarded dict lookup and raises `KeyError` (modelled as
`none`); when the bucket exists (in particular after `add_game_object`, which
creates it) the removal succeeds, and no removal ever deletes a bucket key,
so the error branch is unreachable for objects previously registered through
`add_game_object`. -/
theorem remove_now_keyerror_behaviour (st : Game2D α) (g : GameObject α) :
    (0 ≤ g.collision_layer → st.buckets.lookup g.collision_layer = none →
      remove_game_object_now st g = none) ∧
    (0 ≤ g.collision_layer → ∀ xs, st.buckets.lookup g.collision_layer = some xs →
      (remove_game_object_now st g).isSome = true) ∧
    (g.collision_layer < 0 →
      remove_game_object_now st g =
        some (remove_entity (remove_drawable st g.drawable) g)) ∧
    (0 ≤ g.collision_layer →
      ∃ xs, (add_game_object st g).buckets.lookup g.collision_layer = some xs ∧ g ∈ xs) ∧
    (∀ h st', remove_game_object_now st h = some st' →
      ∀ l, (st.buckets.lookup l).isSome = true → (st'.buckets.lookup l).isSome = true) := by
  have hbk : ∀ h : GameObject α,
      (remove_entity (remove_drawable st h.drawable) h).buckets = st.buckets := by
    intro h
    rw [buckets_remove_entity, buckets_remove_drawable]
  refine ⟨?_, ?_, ?_, ?_, ?_⟩
  · intro hl hnone
    unfold remove_game_object_now remove_game_object_from_collision_layer
    rw [hbk g, if_pos hl, hnone]
  · intro hl xs hxs
    unfold remove_game_object_now remove_game_object_from_collision_layer
    rw [hbk g, if_pos hl, hxs]
    simp
  · intro hl
    unfold remove_game_object_now remove_game_object_from_collision_layer
    rw [if_neg (by omega)]
  · intro hl
    unfold add_game_object add_game_object_to_collision_layer
    rw [if_pos hl]
    unfold add_game_object_to_collision_layer_raw
    exact ⟨_, lookup_bucketAppend_self st.buckets g.collision_layer g,
      List.mem_append_right _ (List.mem_singleton.mpr rfl)⟩
  · intro h st' hrem l hsome
    unfold remove_game_object_now remove_game_object_from_collision_layer at hrem
    rw [hbk h] at hrem
    by_cases hl : 0 ≤ h.collision_layer
    · rw [if_pos hl] at hrem
      rcases hxs : st.buckets.lookup h.collision_layer with _ | xs
      · rw [hxs] at hrem; exact absurd hrem (by simp)
      · rw [hxs] at hrem
        have hst' := Option.some_inj.mp hrem
        rw [← hst']
        split
        · show ((bucketRemove st.buckets h.collision_layer h).lookup l).isSome = true
          rw [lookup_bucketRemove]
          rcases hl' : st.buckets.lookup l with _ | ys
          · rw [hl'] at hsome; simp at hsome
          · simp
        · rw [hbk h]; exact hsome
    · rw [if_neg hl] at hrem
      obtain rfl := Option.some_inj.mp hrem
      rw [hbk h]; exact hsome

/-- Witness for C10 at concrete inputs: on a fresh engine (no bucket for
layer 0) removing `dA` now yields the KeyError (`none`); on `demoState` (its
bucket exists) it succeeds; and registration creates the bucket. -/
theorem remove_now_keyerror_behaviour_witness :
    remove_game_object_now (mkGame2D []) dA = none ∧
    (remove_game_object_now demoState dA).isSome = true ∧
    (∃ xs, (add_game_object (mkGame2D []) dA).buckets.lookup dA.collision_layer =
      some xs ∧ dA ∈ xs) := by
  refine ⟨(remove_now_keyerror_behaviour (mkGame2D []) dA).1 (by decide) (by decide),
    (remove_now_keyerror_behaviour demoState dA).2.1 (by decide) [dA, dB] (by decide),
    (remove_now_keyerror_behaviour (mkGame2D []) dA).2.2.2.1 (by decide)⟩

/-! ## Claim C5: registration with a layer outside [0, 8) -/

/-- A game object whose collision layer 9 is outside the supported depth. -/
def dL9 : GameObject ℤ := ⟨9, ⟨109, ⟨0, 0⟩, ⟨1, 1⟩⟩, 9⟩

/-- A game object with a negative non-sentinel collision layer. -/
def dNeg : GameObject ℤ := ⟨5, ⟨105, ⟨0, 0⟩, ⟨1, 1⟩⟩, -3⟩

/-- C5 (amended): registering a game object whose layer is outside `[0, 8)`
is silently accepted, never raising an error: a layer `>= 8` lands in a
bucket the sweep never scans, a layer `< -1` is treated like the sentinel
`-1` (no bucket at all); in either case the object never receives nor causes
a collision callback.  No `ConfigurationError` (or any error) exists in the
code. -/
theorem out_of_range_layer_is_silent (st : Game2D α) (g : GameObject α) :
    (0 ≤ g.collision_layer →
      ∃ xs, (add_game_object st g).buckets.lookup g.collision_layer = some xs ∧ g ∈ xs) ∧
    (g.collision_layer < 0 → (add_game_object st g).buckets = st.buckets) ∧
    (bucketsWF st → ¬(0 ≤ g.collision_layer ∧ g.collision_layer < 8) →
      ∀ x : GameObject α, (g, x) ∉ calculate_collisions_events st ∧
        (x, g) ∉ calculate_collisions_events st) := by
  refine ⟨(remove_now_keyerror_behaviour st g).2.2.2.1, ?_, ?_⟩
  · intro hl
    unfold add_game_object add_game_object_to_collision_layer
    rw [if_neg (by omega)]
    rfl
  · intro wf hrange x
    constructor
    · intro hmem
      exact hrange (mem_events_layer_range wf hmem).1
    · intro hmem
      exact hrange (mem_events_layer_range wf hmem).2

/-- C5 counterexample: registering `dL9` (layer 9) on a fresh engine raises
nothing — the registration completes, the object sits in bucket 9, and the
subsequent collision sweep runs without error and produces no callbacks —
refuting the claim that this fails fast with a `ConfigurationError`. -/
theorem out_of_range_layer_counterexample :
    (add_game_object (mkGame2D [1]) dL9).buckets.lookup 9 = some [dL9] ∧
    calculate_collisions_events (add_game_object (mkGame2D [1]) dL9) = [] := by
  exact ⟨by decide, rfl⟩

/-- Witness for C5 (amended) at concrete inputs: `dL9` (layer 9) is placed in
bucket 9, `dNeg` (layer -3) creates no bucket, and `dL9` takes part in no
collision callback of `singleState` extended with it. -/
theorem out_of_range_layer_is_silent_witness :
    (∃ xs, (add_game_object (mkGame2D [1]) dL9).buckets.lookup dL9.collision_layer =
      some xs ∧ dL9 ∈ xs) ∧
    (add_game_object (mkGame2D [1]) dNeg).buckets = (mkGame2D [1]).buckets ∧
    ((dL9, dA) ∉ calculate_collisions_events (add_game_object singleState dL9) ∧
      (dA, dL9) ∉ calculate_collisions_events (add_game_object singleState dL9)) := by
  refine ⟨(out_of_range_layer_is_silent (mkGame2D [1]) dL9).1 (by decide),
    (out_of_range_layer_is_silent (mkGame2D [1]) dNeg).2.1 (by decide),
    (out_of_range_layer_is_silent (add_game_object singleState dL9) dL9).2.2
      (by decide) (by decide) dA⟩

/-! ## Claim C7: collision-matrix padding -/

/-- A demo object on layer 0 whose row bit 5 is set in `crossLayerState`. -/
def dL0 : GameObject ℤ := ⟨3, ⟨103, ⟨0, 0⟩, ⟨2, 2⟩⟩, 0⟩

/-- A demo object on layer 5, overlapping `dL0`. -/
def dL5 : GameObject ℤ := ⟨4, ⟨104, ⟨1, 0⟩, ⟨2, 2⟩⟩, 5⟩

/-- Engine built from the 2-row matrix `[32, 0]` (row 0 enables bit 5) with
`dL0` and `dL5` registered. -/
def crossLayerState : Game2D ℤ :=
  add_game_object (add_game_object (mkGame2D [32, 0]) dL0) dL5

theorem getD_zeros6 (n : ℕ) : ([0, 0, 0, 0, 0, 0] : List ℕ).getD n 0 = 0 := by
  rcases n with _ | _ | _ | _ | _ | _ | n <;> simp [List.getD]

/-- C7 (amended): a 2-row matrix is padded to exactly the 8-row matrix with
rows 2–7 zero, so the two constructions give the same
`collision_enabled_between_layers` answers and the same collision callbacks
in every state; in particular every swept layer pair `(i, j)` with `i ≥ 2`
is disabled, so no two objects whose layers are *both* in `[2, 8)` ever
collide.  (Collisions *between* a layer in `{0, 1}` and a layer in `[2, 8)`
can still occur when row 0 or 1 has the corresponding bit set — see the
counterexample.) -/
theorem matrix_padding_behaviour (r0 r1 : ℕ) :
    pad_collision_matrix [r0, r1] = [r0, r1, 0, 0, 0, 0, 0, 0] ∧
    (∀ l1 l2 : ℕ, collision_enabled_between_layers (pad_collision_matrix [r0, r1]) l1 l2 =
      collision_enabled_between_layers [r0, r1, 0, 0, 0, 0, 0, 0] l1 l2) ∧
    (∀ st : Game2D α, st.collision_matrix = pad_collision_matrix [r0, r1] →
      calculate_collisions_events st =
        calculate_collisions_events
          { st with collision_matrix := [r0, r1, 0, 0, 0, 0, 0, 0] }) ∧
    (∀ i j : ℕ, 2 ≤ i →
      collision_enabled_between_layers (pad_collision_matrix [r0, r1]) i j = false) ∧
    (∀ st : Game2D α, st.collision_matrix = pad_collision_matrix [r0, r1] → bucketsWF st →
      ∀ x y : GameObject α, 2 ≤ x.collision_layer → 2 ≤ y.collision_layer →
        (x, y) ∉ calculate_collisions_events st) := by
  have hpad : pad_collision_matrix [r0, r1] = [r0, r1, 0, 0, 0, 0, 0, 0] := by
    unfold pad_collision_matrix COLLISION_MATRIX_DEPTH
    rw [if_pos (by simp)]
    rfl
  have hdis : ∀ i j : ℕ, 2 ≤ i →
      collision_enabled_between_layers (pad_collision_matrix [r0, r1]) i j = false := by
    intro i j hi
    rw [hpad]
    unfold collision_enabled_between_layers
    have hz : ([r0, r1, 0, 0, 0, 0, 0, 0] : List ℕ).getD i 0 = 0 := by
      rcases i with _ | _ | n
      · omega
      · omega
      · simpa [List.getD] using getD_zeros6 n
    rw [hz]
    simp [Nat.zero_and]
  refine ⟨hpad, fun l1 l2 => by rw [hpad], ?_, hdis, ?_⟩
  · intro st hst
    have hrec : st = { st with collision_matrix := [r0, r1, 0, 0, 0, 0, 0, 0] } := by
      have h8 := hst.trans hpad
      cases st
      simp_all
    rw [← hrec]
  · intro st hst wf x y hx hy hmem
    obtain ⟨i, j, hij, hj, hen, hor⟩ := mem_events hmem
    have hi2 : 2 ≤ i := by
      rcases hor with ⟨h1, _⟩ | ⟨h1, _⟩
      · have := layer_of_mem_bucket wf h1
        omega
      · have := layer_of_mem_bucket wf h1
        omega
    rw [hst, hdis i j hi2] at hen
    exact Bool.false_ne_true hen

/-- C7 counterexample: with the 2-row matrix `[32, 0]` (row 0, bit 5 set),
the engine *does* produce a collision involving layer 5: `dL0` (layer 0) and
`dL5` (layer 5) collide — refuting the claim that no collisions involve
layers 2 through 7. -/
theorem matrix_padding_counterexample :
    dL0.collision_layer = 0 ∧ dL5.collision_layer = 5 ∧
    crossLayerState.collision_matrix = pad_collision_matrix [32, 0] ∧
    (dL0, dL5) ∈ calculate_collisions_events crossLayerState := by
  exact ⟨rfl, rfl, rfl, by decide⟩

/-- Witness for C7 (amended) at concrete inputs. -/
theorem matrix_padding_behaviour_witness :
    collision_enabled_between_layers (pad_collision_matrix [32, 0]) 3 0 = false ∧
    (dL5, dL5) ∉ calculate_collisions_events crossLayerState ∧
    calculate_collisions_events crossLayerState =
      calculate_collisions_events
        { crossLayerState with collision_matrix := [32, 0, 0, 0, 0, 0, 0, 0] } := by
  refine ⟨(matrix_padding_behaviour (α := ℤ) 32 0).2.2.2.1 3 0 (by omega), ?_, ?_⟩
  · exact (matrix_padding_behaviour (α := ℤ) 32 0).2.2.2.2 crossLayerState rfl (by decide)
      dL5 dL5 (by decide) (by decide)
  · exact (matrix_padding_behaviour (α := ℤ) 32 0).2.2.1 crossLayerState rfl

/-! ## Claim C1: counting collision callbacks

The count of each ordered event `(receiver, argument)` in the sweep's
invocation log is computed exactly, for any well-formed state. -/

/-- `intersects` is symmetric (helper shared by the counting lemmas). -/
theorem intersects_symm (a b : Rect α) : a.intersects b = b.intersects a := by
  rcases hab : a.intersects b with _ | _
  · rw [eq_comm, ← Bool.not_eq_true, Rect.intersects_eq_true_iff]
    rw [← Bool.not_eq_true, Rect.intersects_eq_true_iff] at hab
    intro ⟨h1, h2, h3, h4⟩
    exact hab ⟨h2, h1, h4, h3⟩
  · rw [Rect.intersects_eq_true_iff] at hab
    obtain ⟨h1, h2, h3, h4⟩ := hab
    rw [eq_comm, Rect.intersects_eq_true_iff]
    exact ⟨h2, h1, h4, h3⟩

theorem hitCond_symm {o1 o2 : GameObject α} (h : hitCond o1 o2) : hitCond o2 o1 :=
  ⟨h.1.symm, (intersects_symm o2.get_collider o1.get_collider).trans h.2⟩

theorem count_emit_inner {a b : GameObject α} (hab : a ≠ b) (o1 : GameObject α)
    (l2 : List (GameObject α)) :
    ((l2.flatMap fun o2 => if hitCond o1 o2 then [(o1, o2), (o2, o1)] else []).count (a, b))
      = (if o1 = a ∧ hitCond a b then l2.count b else 0) +
        (if o1 = b ∧ hitCond b a then l2.count a else 0) := by
  induction l2 with
  | nil => simp
  | cons o2 t ih =>
    rw [List.flatMap_cons, List.count_append, ih]
    by_cases hP : hitCond o1 o2 <;> by_cases h1a : o1 = a <;> by_cases h1b : o1 = b <;>
        by_cases h2a : o2 = a <;> by_cases h2b : o2 = b <;>
      simp_all [List.count_cons, Prod.ext_iff] <;> omega

theorem count_emit_outer {a b : GameObject α} (hab : a ≠ b)
    (l1 l2 : List (GameObject α)) :
    ((l1.flatMap fun o1 => l2.flatMap fun o2 =>
        if hitCond o1 o2 then [(o1, o2), (o2, o1)] else []).count (a, b))
      = (if hitCond a b then l1.count a * l2.count b else 0) +
        (if hitCond b a then l1.count b * l2.count a else 0) := by
  induction l1 with
  | nil => simp
  | cons o1 t ih =>
    rw [List.flatMap_cons, List.count_append, ih, count_emit_inner hab o1 l2]
    by_cases h1a : o1 = a <;> by_cases h1b : o1 = b <;>
        by_cases hPab : hitCond a b <;> by_cases hPba : hitCond b a <;>
      simp_all [List.count_cons] <;> ring

/-- In a well-formed state, an object sitting in the bucket for `la` is
counted once by the bucket for `la` and zero times by every other bucket. -/
theorem count_bucket_eq {st : Game2D α} (wf : bucketsWF st) {la : ℤ} {a : GameObject α}
    (ha : a ∈ get_entities_by_collision_layer st la) (l : ℤ) :
    (get_entities_by_collision_layer st l).count a = if l = la then 1 else 0 := by
  obtain ⟨xs0, hla, haxs⟩ := mem_get_entities ha
  by_cases hl : l = la
  · subst hl
    rw [if_pos rfl]
    unfold get_entities_by_collision_layer
    rw [hla]
    exact List.count_eq_one_of_mem (wf.2 _ (lookup_mem hla)).1 haxs
  · rw [if_neg hl]
    unfold get_entities_by_collision_layer
    rcases hll : st.buckets.lookup l with _ | ys
    · simp
    · have hlayer : a.collision_layer = la := (wf.2 _ (lookup_mem hla)).2 a haxs
      have hnot : a ∉ ys := by
        intro hmem
        have h5 := (wf.2 _ (lookup_mem hll)).2 a hmem
        rw [hlayer] at h5
        exact hl h5.symm
      simpa using List.count_eq_zero.mpr hnot

/-- The number of times an ordered event appears in the emissions of one
layer pair of the sweep. -/
theorem count_pairEvents {st : Game2D α} (wf : bucketsWF st) {a b : GameObject α}
    (hab : a ≠ b) {la lb : ℤ}
    (ha : a ∈ get_entities_by_collision_layer st la)
    (hb : b ∈ get_entities_by_collision_layer st lb) (p : ℕ × ℕ) :
    (pairEvents st p).count (a, b) =
      if collision_enabled_between_layers st.collision_matrix p.1 p.2 then
        (if hitCond a b then
          (if (p.1 : ℤ) = la then 1 else 0) * (if (p.2 : ℤ) = lb then 1 else 0) else 0) +
        (if hitCond b a then
          (if (p.1 : ℤ) = lb then 1 else 0) * (if (p.2 : ℤ) = la then 1 else 0) else 0)
      else 0 := by
  unfold pairEvents
  rcases hen : collision_enabled_between_layers st.collision_matrix p.1 p.2 with _ | _
  · simp
  · simp only [if_true]
    rw [count_emit_outer hab]
    rw [count_bucket_eq wf ha, count_bucket_eq wf hb,
      count_bucket_eq wf ha, count_bucket_eq wf hb]

theorem sum_map_eq_single {β : Type} (l : List β) (f : β → ℕ) (q : β)
    (hq : q ∈ l) (hnd : l.Nodup) (hz : ∀ x ∈ l, x ≠ q → f x = 0) :
    (l.map f).sum = f q := by
  induction l with
  | nil => simp at hq
  | cons x t ih =>
    rw [List.map_cons, List.sum_cons]
    rcases List.mem_cons.mp hq with rfl | hq'
    · have hzt : (t.map f).sum = 0 := by
        apply List.sum_eq_zero
        intro y hy
        obtain ⟨z, hz', rfl⟩ := List.mem_map.mp hy
        exact hz z (List.mem_cons_of_mem _ hz')
          (fun h => (List.nodup_cons.mp hnd).1 (h ▸ hz'))
      rw [hzt, Nat.add_zero]
    · have hx : x ≠ q := fun h => (List.nodup_cons.mp hnd).1 (h ▸ hq')
      rw [hz x (List.mem_cons_self _ _) hx,
        ih hq' (List.nodup_cons.mp hnd).2
          (fun y hy => hz y (List.mem_cons_of_mem _ hy)), Nat.zero_add]

theorem layerPairs_nodup : layerPairs.Nodup := by decide

/-- Exact count of an ordered event in the full sweep log, for any two
distinct registered objects (no ordering assumption between their layers):
the event fires once for each of the two bucket-orientations the sweep can
encounter it in. -/
theorem count_events_general {st : Game2D α} (wf : bucketsWF st) {a b : GameObject α}
    (hab : a ≠ b) {la lb : ℕ}
    (ha : a ∈ get_entities_by_collision_layer st (la : ℤ))
    (hb : b ∈ get_entities_by_collision_layer st (lb : ℤ))
    (hla : la < COLLISION_MATRIX_DEPTH) (hlb : lb < COLLISION_MATRIX_DEPTH) :
    (calculate_collisions_events st).count (a, b) =
      if collision_enabled_between_layers st.collision_matrix (min la lb) (max la lb) then
        (if la ≤ lb ∧ hitCond a b then 1 else 0) +
        (if lb ≤ la ∧ hitCond b a then 1 else 0)
      else 0 := by
  have hqmem : (min la lb, max la lb) ∈ layerPairs :=
    mem_layerPairs.mpr ⟨by omega, by omega⟩
  have hzero : ∀ x ∈ layerPairs, x ≠ (min la lb, max la lb) →
      (pairEvents st x).count (a, b) = 0 := by
    rintro ⟨x1, x2⟩ hx hne
    obtain ⟨hx12, hx2⟩ := mem_layerPairs.mp hx
    rw [count_pairEvents wf hab ha hb]
    rcases hen : collision_enabled_between_layers st.collision_matrix
        (x1, x2).1 (x1, x2).2 with _ | _
    · simp
    · simp only [if_true]
      have hxa : ((x1 : ℕ) : ℤ) = (la : ℤ) ↔ x1 = la := by omega
      have hxb : ((x2 : ℕ) : ℤ) = (lb : ℤ) ↔ x2 = lb := by omega
      have hxc : ((x1 : ℕ) : ℤ) = (lb : ℤ) ↔ x1 = lb := by omega
      have hxd : ((x2 : ℕ) : ℤ) = (la : ℤ) ↔ x2 = la := by omega
      have hne2 : x1 ≠ min la lb ∨ x2 ≠ max la lb := by
        by_cases hh : x1 = min la lb
        · right
          intro hh2
          exact hne (by rw [hh, hh2])
        · left; exact hh
      simp only [hxa, hxb, hxc, hxd]
      have hA : (if x1 = la then (1 : ℕ) else 0) * (if x2 = lb then 1 else 0) = 0 := by
        rcases hne2 with h | h <;> by_cases e1 : x1 = la <;> by_cases e2 : x2 = lb <;>
          simp [e1, e2] <;> omega
      have hB : (if x1 = lb then (1 : ℕ) else 0) * (if x2 = la then 1 else 0) = 0 := by
        rcases hne2 with h | h <;> by_cases e3 : x1 = lb <;> by_cases e4 : x2 = la <;>
          simp [e3, e4] <;> omega
      rw [hA, hB]
      simp
  have hsum : (layerPairs.map fun x => (pairEvents st x).count (a, b)).sum =
      (pairEvents st (min la lb, max la lb)).count (a, b) :=
    sum_map_eq_single _ _ _ hqmem layerPairs_nodup hzero
  have hflat : (calculate_collisions_events st).count (a, b) =
      (layerPairs.map fun x => (pairEvents st x).count (a, b)).sum :=
    List.count_flatMap _ _ _
  rw [hflat, hsum, count_pairEvents wf hab ha hb]
  have h1 : ((min la lb : ℕ) : ℤ) = (la : ℤ) ↔ la ≤ lb := by omega
  have h2 : ((max la lb : ℕ) : ℤ) = (lb : ℤ) ↔ la ≤ lb := by omega
  have h3 : ((min la lb : ℕ) : ℤ) = (lb : ℤ) ↔ lb ≤ la := by omega
  have h4 : ((max la lb : ℕ) : ℤ) = (la : ℤ) ↔ lb ≤ la := by omega
  rcases hen : collision_enabled_between_layers st.collision_matrix
      (min la lb, max la lb).1 (min la lb, max la lb).2 with _ | _
  · simp only [Bool.false_eq_true, if_false]
  · simp only [if_true, h1, h2, h3, h4]
    by_cases hle : la ≤ lb <;> by_cases hge : lb ≤ la <;>
        by_cases hPab : hitCond a b <;> by_cases hPba : hitCond b a <;>
      simp_all

/-- C1 (amended): for any two distinct registered objects with intersecting
colliders on layers `la, lb < 8`, when the matrix enables the swept pair
`(min, max)`, the sweep invokes `a.on_collision(b)` and `b.on_collision(a)`
each exactly once if `la ≠ lb`, but each exactly **twice** if `la = lb` (the
nested double loop over the same bucket visits both ordered pairs); when the
pair is disabled, neither callback is invoked. -/
theorem collision_callbacks_per_pair (st : Game2D α) (a b : GameObject α) (la lb : ℕ)
    (wf : bucketsWF st) (hab : a ≠ b)
    (ha : a ∈ get_entities_by_collision_layer st (la : ℤ))
    (hb : b ∈ get_entities_by_collision_layer st (lb : ℤ))
    (hla : la < COLLISION_MATRIX_DEPTH) (hlb : lb < COLLISION_MATRIX_DEPTH)
    (hint : a.get_collider.intersects b.get_collider = true) :
    (collision_enabled_between_layers st.collision_matrix (min la lb) (max la lb) = true →
      (la ≠ lb →
        (calculate_collisions_events st).count (a, b) = 1 ∧
        (calculate_collisions_events st).count (b, a) = 1) ∧
      (la = lb →
        (calculate_collisions_events st).count (a, b) = 2 ∧
        (calculate_collisions_events st).count (b, a) = 2)) ∧
    (collision_enabled_between_layers st.collision_matrix (min la lb) (max la lb) = false →
      (calculate_collisions_events st).count (a, b) = 0 ∧
      (calculate_collisions_events st).count (b, a) = 0) := by
  have hPab : hitCond a b := ⟨hab, hint⟩
  have hPba : hitCond b a := hitCond_symm hPab
  have hcab := count_events_general wf hab ha hb hla hlb
  have hcba := count_events_general wf hab.symm hb ha hlb hla
  rw [min_comm lb la, max_comm lb la] at hcba
  refine ⟨fun hen => ⟨fun hne => ?_, fun heq => ?_⟩, fun hdis => ?_⟩
  · constructor
    · rw [hcab, if_pos hen]
      by_cases hle : la ≤ lb
      · have hnge : ¬ lb ≤ la := by omega
        simp [hle, hnge, hPab]
      · have hge : lb ≤ la := by omega
        simp [hle, hge, hPba]
    · rw [hcba, if_pos hen]
      by_cases hle : la ≤ lb
      · have hnge : ¬ lb ≤ la := by omega
        simp [hle, hnge, hPab]
      · have hge : lb ≤ la := by omega
        simp [hle, hge, hPba]
  · have hle : la ≤ lb := by omega
    have hge : lb ≤ la := by omega
    constructor
    · rw [hcab, if_pos hen]
      simp [hle, hge, hPab, hPba]
    · rw [hcba, if_pos hen]
      simp [hle, hge, hPab, hPba]
  · constructor
    · rw [hcab, if_neg (by simp [hdis])]
    · rw [hcba, if_neg (by simp [hdis])]

/-- C1 counterexample: `dA` and `dB` are distinct intersecting objects on the
same self-colliding layer 0 of `demoState`, and each direction of the
callback pair is invoked exactly **twice** per sweep, not once as claimed. -/
theorem collision_callbacks_counterexample :
    dA.collision_layer = 0 ∧ dB.collision_layer = 0 ∧
    collision_enabled_between_layers demoState.collision_matrix 0 0 = true ∧
    dA.get_collider.intersects dB.get_collider = true ∧
    (calculate_collisions_events demoState).count (dA, dB) = 2 ∧
    (calculate_collisions_events demoState).count (dB, dA) = 2 ∧
    ((calculate_collisions_events demoState).count (dA, dB) = 1 → False) := by
  decide

/-- A demo object on collision layer 1 overlapping `dA`; with matrix `[1]`
the layer pair `(0, 1)` is disabled. -/
def dC : GameObject ℤ := ⟨6, ⟨106, ⟨0, 0⟩, ⟨2, 2⟩⟩, 1⟩

/-- A demo state in which `dA` (layer 0) and `dC` (layer 1) overlap but the
matrix `[1]` does not enable the pair `(0, 1)`. -/
def disabledState : Game2D ℤ := add_game_object (add_game_object (mkGame2D [1]) dA) dC

/-- Witness for C1 (amended) at concrete inputs: distinct layers fire once
each way (`crossLayerState`), a self-colliding layer fires twice each way
(`demoState`), a disabled pair fires not at all (`disabledState`). -/
theorem collision_callbacks_per_pair_witness :
    ((calculate_collisions_events crossLayerState).count (dL0, dL5) = 1 ∧
      (calculate_collisions_events crossLayerState).count (dL5, dL0) = 1) ∧
    ((calculate_collisions_events demoState).count (dA, dB) = 2 ∧
      (calculate_collisions_events demoState).count (dB, dA) = 2) ∧
    ((calculate_collisions_events disabledState).count (dA, dC) = 0 ∧
      (calculate_collisions_events disabledState).count (dC, dA) = 0) := by
  refine ⟨((collision_callbacks_per_pair crossLayerState dL0 dL5 0 5 (by decide) (by decide)
      (by decide) (by decide) (by decide) (by decide) (by decide)).1 (by decide)).1
        (by decide),
    ((collision_callbacks_per_pair demoState dA dB 0 0 (by decide) (by decide)
      (by decide) (by decide) (by decide) (by decide) (by decide)).1 (by decide)).2 rfl,
    (collision_callbacks_per_pair disabledState dA dC 0 1 (by decide) (by decide)
      (by decide) (by decide) (by decide) (by decide) (by decide)).2 (by decide)⟩

/-! ## Claim C2: two-phase (deferred) removal

`goneFrom` says an object is absent from all three registries;
`removalSafe` says it occurs at most once in each (no double registration)
and only in its own layer's bucket — true of every state built through the
public `add_game_object` API. -/

/-- The object is absent from the entity list, the drawable list, and every
collision-layer bucket. -/
def goneFrom (st : Game2D α) (g : GameObject α) : Prop :=
  g ∉ st.entities ∧ g.drawable ∉ st.drawables ∧ ∀ p ∈ st.buckets, g ∉ p.2

instance (st : Game2D α) (g : GameObject α) : Decidable (goneFrom st g) := by
  unfold goneFrom; infer_instance

/-- The object occurs at most once in each registry, bucket keys are distinct,
and the object only occurs in its own (non-negative) layer's bucket. -/
def removalSafe (st : Game2D α) (g : GameObject α) : Prop :=
  st.entities.count g ≤ 1 ∧ st.drawables.count g.drawable ≤ 1 ∧
  (st.buckets.map Prod.fst).Nodup ∧
  ∀ p ∈ st.buckets, p.2.count g ≤ 1 ∧
    (g ∈ p.2 → p.1 = g.collision_layer ∧ 0 ≤ g.collision_layer)

instance (st : Game2D α) (g : GameObject α) : Decidable (removalSafe st g) := by
  unfold removalSafe; infer_instance

theorem bucketRemove_keys (bs : List (ℤ × List (GameObject α))) (l : ℤ)
    (g : GameObject α) : (bucketRemove bs l g).map Prod.fst = bs.map Prod.fst := by
  unfold bucketRemove
  rw [List.map_map]
  apply List.map_congr_left
  intro p _
  by_cases hp : p.1 = l <;> simp [hp]

theorem lookup_of_keysNodup_mem {bs : List (ℤ × List (GameObject α))}
    (hnd : (bs.map Prod.fst).Nodup) {l : ℤ} {v : List (GameObject α)}
    (hmem : (l, v) ∈ bs) : bs.lookup l = some v := by
  induction bs with
  | nil => simp at hmem
  | cons p t ih =>
    obtain ⟨k, u⟩ := p
    rw [List.lookup_cons]
    rcases List.mem_cons.mp hmem with heq | hmem'
    · obtain ⟨rfl, rfl⟩ := Prod.mk.injEq .. ▸ heq
      simp
    · rcases hk : l == k with _ | _
      · exact ih (List.nodup_cons.mp (by simpa using hnd)).2 hmem'
      · obtain rfl := eq_of_beq hk
        exfalso
        have : l ∈ t.map Prod.fst := List.mem_map.mpr ⟨(l, v), hmem', rfl⟩
        exact (List.nodup_cons.mp (by simpa using hnd)).1 this


/-- After a successful `remove_game_object_now`, the buckets are either
untouched or exactly `bucketRemove` at the object's layer. -/
theorem buckets_after_remove_now {st st' : Game2D α} {h : GameObject α}
    (hrem : remove_game_object_now st h = some st') :
    st'.buckets = st.buckets ∨
      st'.buckets = bucketRemove st.buckets h.collision_layer h := by
  unfold remove_game_object_now remove_game_object_from_collision_layer at hrem
  by_cases hl : 0 ≤ h.collision_layer
  · rw [if_pos hl] at hrem
    rcases hxs : (remove_entity (remove_drawable st h.drawable) h).buckets.lookup
        h.collision_layer with _ | xs
    · rw [hxs] at hrem; exact absurd hrem (by simp)
    · rw [hxs] at hrem
      have hst' := Option.some_inj.mp hrem
      rw [← hst']
      split
      · right
        show bucketRemove (remove_entity (remove_drawable st h.drawable) h).buckets
          h.collision_layer h = _
        rw [buckets_remove_entity, buckets_remove_drawable]
      · left
        rw [buckets_remove_entity, buckets_remove_drawable]
  · rw [if_neg hl] at hrem
    obtain rfl := Option.some_inj.mp hrem
    left
    rw [buckets_remove_entity, buckets_remove_drawable]

/-- After a successful `remove_game_object_now`, the entity list is the old
one with the object's first occurrence erased, and similarly for drawables. -/
theorem lists_after_remove_now {st st' : Game2D α} {h : GameObject α}
    (hrem : remove_game_object_now st h = some st') :
    st'.entities = st.entities.erase h ∧
      st'.drawables = st.drawables.erase h.drawable := by
  have he : (remove_entity (remove_drawable st h.drawable) h).entities =
      st.entities.erase h := by
    unfold remove_entity
    rw [entities_remove_drawable]
    split
    · rfl
    · next hnot =>
      rw [entities_remove_drawable, List.erase_of_not_mem hnot]
  have hd : (remove_entity (remove_drawable st h.drawable) h).drawables =
      st.drawables.erase h.drawable := by
    rw [drawables_remove_entity]
    unfold remove_drawable
    split
    · rfl
    · rw [List.erase_of_not_mem (by assumption)]
  unfold remove_game_object_now remove_game_object_from_collision_layer at hrem
  by_cases hl : 0 ≤ h.collision_layer
  · rw [if_pos hl] at hrem
    rcases hxs : (remove_entity (remove_drawable st h.drawable) h).buckets.lookup
        h.collision_layer with _ | xs
    · rw [hxs] at hrem; exact absurd hrem (by simp)
    · rw [hxs] at hrem
      have hst' := Option.some_inj.mp hrem
      rw [← hst']
      split
      · exact ⟨he, hd⟩
      · exact ⟨he, hd⟩
  · rw [if_neg hl] at hrem
    obtain rfl := Option.some_inj.mp hrem
    exact ⟨he, hd⟩

/-- Absence from all registries is preserved by any successful
`remove_game_object_now`. -/
theorem goneFrom_remove_now {st st' : Game2D α} {g h : GameObject α}
    (hgone : goneFrom st g) (hrem : remove_game_object_now st h = some st') :
    goneFrom st' g := by
  obtain ⟨hge, hgd, hgb⟩ := hgone
  obtain ⟨he, hd⟩ := lists_after_remove_now hrem
  refine ⟨?_, ?_, ?_⟩
  · rw [he]; exact fun hc => hge (List.mem_of_mem_erase hc)
  · rw [hd]; exact fun hc => hgd (List.mem_of_mem_erase hc)
  · rcases buckets_after_remove_now hrem with hb | hb
    · rw [hb]; exact hgb
    · rw [hb]
      intro p hp
      unfold bucketRemove at hp
      obtain ⟨q, hq, rfl⟩ := List.mem_map.mp hp
      by_cases hq1 : q.1 = h.collision_layer
      · rw [if_pos hq1]
        exact fun hc => hgb q hq (List.mem_of_mem_erase hc)
      · rw [if_neg hq1]
        exact hgb q hq

/-- `removalSafe` is preserved by any successful `remove_game_object_now`. -/
theorem removalSafe_remove_now {st st' : Game2D α} {g h : GameObject α}
    (hsafe : removalSafe st g) (hrem : remove_game_object_now st h = some st') :
    removalSafe st' g := by
  obtain ⟨hse, hsd, hkeys, hsb⟩ := hsafe
  obtain ⟨he, hd⟩ := lists_after_remove_now hrem
  refine ⟨?_, ?_, ?_, ?_⟩
  · rw [he, List.count_erase]
    omega
  · rw [hd, List.count_erase]
    omega
  · rcases buckets_after_remove_now hrem with hb | hb
    · rw [hb]; exact hkeys
    · rw [hb, bucketRemove_keys]; exact hkeys
  · rcases buckets_after_remove_now hrem with hb | hb
    · rw [hb]; exact hsb
    · rw [hb]
      intro p hp
      unfold bucketRemove at hp
      obtain ⟨q, hq, rfl⟩ := List.mem_map.mp hp
      by_cases hq1 : q.1 = h.collision_layer
      · rw [if_pos hq1]
        refine ⟨by rw [List.count_erase]; exact le_trans (Nat.sub_le _ _) (hsb q hq).1, ?_⟩
        intro hgmem
        exact (hsb q hq).2 (List.mem_of_mem_erase hgmem)
      · rw [if_neg hq1]
        exact hsb q hq

/-- Removing the object itself (when `removalSafe`) empties it from all
three registries. -/
theorem goneFrom_after_remove_self {st st' : Game2D α} {g : GameObject α}
    (hsafe : removalSafe st g) (hrem : remove_game_object_now st g = some st') :
    goneFrom st' g := by
  obtain ⟨hse, hsd, hkeys, hsb⟩ := hsafe
  obtain ⟨he, hd⟩ := lists_after_remove_now hrem
  refine ⟨?_, ?_, ?_⟩
  · rw [he, ← List.count_eq_zero, List.count_erase_self]
    omega
  · rw [hd, ← List.count_eq_zero, List.count_erase_self]
    omega
  · rcases buckets_after_remove_now hrem with hb | hb
    · -- buckets untouched: either the layer is negative (then g is in no
      -- bucket by removalSafe), or g was not in its layer's bucket, and by
      -- key uniqueness it is in no other bucket either
      rw [hb]
      intro p hp hgp
      obtain ⟨hp1, hl0⟩ := (hsb p hp).2 hgp
      -- g ∈ p.2 with p.1 = g.collision_layer ≥ 0; show the removal could not
      -- have taken the untouched branch: derive a contradiction from hrem
      unfold remove_game_object_now remove_game_object_from_collision_layer at hrem
      rw [if_pos hl0, buckets_remove_entity, buckets_remove_drawable] at hrem
      have hlook : st.buckets.lookup g.collision_layer = some p.2 := by
        have := lookup_of_keysNodup_mem hkeys (hp1 ▸ hp : (g.collision_layer, p.2) ∈ st.buckets)
        exact this
      rw [hlook] at hrem
      have hst'2 := Option.some_inj.mp hrem
      rw [if_pos hgp] at hst'2
      have hbks : st'.buckets = bucketRemove st.buckets g.collision_layer g := by
        rw [← hst'2]
      rw [hb] at hbks
      have hlook2 : (bucketRemove st.buckets g.collision_layer g).lookup
          g.collision_layer = some (p.2.erase g) := by
        rw [lookup_bucketRemove, hlook]
        simp
      rw [← hbks, hlook] at hlook2
      have hp2 : p.2 = p.2.erase g := Option.some_inj.mp hlook2
      have hcnt : p.2.count g = p.2.count g - 1 := by
        conv_lhs => rw [hp2]
        rw [List.count_erase_self]
      have hpos : 0 < p.2.count g := List.count_pos_iff.mpr hgp
      omega
    · rw [hb]
      intro p hp hgp
      unfold bucketRemove at hp
      obtain ⟨q, hq, rfl⟩ := List.mem_map.mp hp
      by_cases hq1 : q.1 = g.collision_layer
      · rw [if_pos hq1] at hgp
        have hgp2 : g ∈ q.2.erase g := hgp
        have hle := (hsb q hq).1
        have hmem2 : g ∈ q.2 := List.mem_of_mem_erase hgp2
        have hpos : 0 < q.2.count g := List.count_pos_iff.mpr hmem2
        have hpos2 : 0 < (q.2.erase g).count g := List.count_pos_iff.mpr hgp2
        have hzero : (q.2.erase g).count g = q.2.count g - 1 := List.count_erase_self _ _
        omega
      · rw [if_neg hq1] at hgp
        exact hq1 ((hsb q hq).2 hgp).1

theorem flush_aux_preserves_gone {g : GameObject α} :
    ∀ (q : List (GameObject α)) (st st' : Game2D α), goneFrom st g →
      flush_removals_aux q st = some st' → goneFrom st' g := by
  intro q
  induction q with
  | nil =>
    intro st st' hgone hfl
    obtain rfl := Option.some_inj.mp hfl
    exact hgone
  | cons h t ih =>
    intro st st' hgone hfl
    unfold flush_removals_aux at hfl
    rcases hrem : remove_game_object_now st h with _ | st1
    · rw [hrem] at hfl; exact absurd hfl (by simp)
    · rw [hrem] at hfl
      exact ih st1 st' (goneFrom_remove_now hgone hrem) hfl

theorem flush_aux_removes {g : GameObject α} :
    ∀ (q : List (GameObject α)) (st st' : Game2D α), g ∈ q → removalSafe st g →
      flush_removals_aux q st = some st' → goneFrom st' g := by
  intro q
  induction q with
  | nil => intro st st' hmem; simp at hmem
  | cons h t ih =>
    intro st st' hmem hsafe hfl
    unfold flush_removals_aux at hfl
    rcases hrem : remove_game_object_now st h with _ | st1
    · rw [hrem] at hfl; exact absurd hfl (by simp)
    · rw [hrem] at hfl
      by_cases hg : h = g
      · subst hg
        exact flush_aux_preserves_gone t st1 st'
          (goneFrom_after_remove_self hsafe hrem) hfl
      · rcases List.mem_cons.mp hmem with heq | hmem'
        · exact absurd heq.symm hg
        · exact ih st1 st' hmem' (removalSafe_remove_now hsafe hrem) hfl

/-- The end-of-frame flush removes every enqueued `removalSafe` object from
all three registries. -/
theorem flush_removes {st st'' : Game2D α} {g : GameObject α}
    (hmem : g ∈ st.game_objects_to_remove) (hsafe : removalSafe st g)
    (hfl : flush_removals st = some st'') : goneFrom st'' g := by
  unfold flush_removals at hfl
  rcases haux : flush_removals_aux st.game_objects_to_remove st with _ | st'
  · rw [haux] at hfl; exact absurd hfl (by simp)
  · rw [haux] at hfl
    have hst'' := Option.some_inj.mp hfl
    have hgone := flush_aux_removes st.game_objects_to_remove st st' hmem hsafe haux
    rw [← hst'']
    exact hgone

/-- The collision sweep reads only the buckets and the collision matrix. -/
theorem events_congr {st t : Game2D α} (hb : st.buckets = t.buckets)
    (hm : st.collision_matrix = t.collision_matrix) :
    calculate_collisions_events st = calculate_collisions_events t := by
  unfold calculate_collisions_events pairEvents get_entities_by_collision_layer
  rw [hb, hm]

/-- C2 (amended): `remove_game_object(g)` immediately deactivates `g` and its
drawable, so `g` is skipped by the entity-update pass and by the draw pass;
it leaves all three registries (and hence the collision sweep, which checks
no `active` flag) unchanged, only appending `g` to the removal queue; `g` is
physically unregistered from all three registries by the end-of-frame flush,
which runs after collision detection.  (The original claim's assertion that
`g` is also skipped by the collision sweep is refuted by the
counterexample.) -/
theorem deferred_removal_behaviour (st : Game2D α) (g : GameObject α) :
    ((remove_game_object st g).objActive g.id = false ∧
      (remove_game_object st g).drwActive g.drawable.id = false) ∧
    ((remove_game_object st g).entities = st.entities ∧
      (remove_game_object st g).drawables = st.drawables ∧
      (remove_game_object st g).buckets = st.buckets ∧
      (remove_game_object st g).game_objects_to_remove =
        st.game_objects_to_remove ++ [g]) ∧
    (g.id ∉ entity_update_log (remove_game_object st g) ∧
      g.drawable.id ∉ draw_log (remove_game_object st g)) ∧
    calculate_collisions_events (remove_game_object st g) =
      calculate_collisions_events st ∧
    (removalSafe st g → ∀ st'', flush_removals (remove_game_object st g) = some st'' →
      goneFrom st'' g) := by
  refine ⟨⟨by simp [remove_game_object, set_active_game_object], ?_⟩,
    ⟨rfl, rfl, rfl, rfl⟩, ⟨?_, ?_⟩, events_congr rfl rfl, ?_⟩
  · simp [remove_game_object, set_active_game_object]
  · intro hmem
    unfold entity_update_log at hmem
    obtain ⟨x, hx, hid⟩ := List.mem_map.mp hmem
    have hact := (List.mem_filter.mp hx).2
    rw [hid] at hact
    simp [remove_game_object, set_active_game_object] at hact
  · intro hmem
    unfold draw_log at hmem
    obtain ⟨x, hx, hid⟩ := List.mem_map.mp hmem
    have hact := (List.mem_filter.mp hx).2
    rw [hid] at hact
    simp [remove_game_object, set_active_game_object] at hact
  · intro hsafe st'' hfl
    refine flush_removes ?_ ?_ hfl
    · exact List.mem_append_right _ (List.mem_singleton.mpr rfl)
    · exact hsafe

/-- C2 counterexample: after `remove_game_object demoState dA`, `dA` is
inactive, yet the collision sweep still fires both of its callbacks — the
sweep does **not** skip deactivated objects, refuting the claim that `g` is
skipped by the collision sweep for the remainder of the frame. -/
theorem deferred_removal_counterexample :
    (remove_game_object demoState dA).objActive dA.id = false ∧
    (dA, dB) ∈ calculate_collisions_events (remove_game_object demoState dA) ∧
    (dB, dA) ∈ calculate_collisions_events (remove_game_object demoState dA) := by
  decide

/-- Witness for C2 (amended) at concrete inputs. -/
theorem deferred_removal_behaviour_witness :
    ((remove_game_object demoState dA).objActive dA.id = false ∧
      (remove_game_object demoState dA).drwActive dA.drawable.id = false) ∧
    (remove_game_object demoState dA).entities = demoState.entities ∧
    dA.id ∉ entity_update_log (remove_game_object demoState dA) ∧
    calculate_collisions_events (remove_game_object demoState dA) =
      calculate_collisions_events demoState ∧
    (∃ st'', flush_removals (remove_game_object demoState dA) = some st'' ∧
      goneFrom st'' dA) := by
  have hthm := deferred_removal_behaviour demoState dA
  refine ⟨hthm.1, hthm.2.1.1, hthm.2.2.1.1, hthm.2.2.2.1, ?_⟩
  rcases hfl : flush_removals (remove_game_object demoState dA) with _ | st''
  · have hs : (flush_removals (remove_game_object demoState dA)).isSome = true := by decide
    rw [hfl] at hs
    simp at hs
  · exact ⟨st'', rfl, hthm.2.2.2.2 (by decide) st'' hfl⟩

/-! ## Claim C3: self-removal from inside an `on_collision` handler

`calculate_collisions_eff` re-runs the sweep threading an explicit
handler-effect function through every invocation, exactly as the nested
loops of `calculate_collisions` do (bucket lists captured per layer pair,
both callbacks of a hit applied in order). -/

/-- The inner emissions of the sweep for a fixed `ob1` over a bucket list. -/
def innerEv (ob1 : GameObject α) (l2 : List (GameObject α)) :
    List (GameObject α × GameObject α) :=
  l2.flatMap fun ob2 =>
    if hitCond ob1 ob2 then [(ob1, ob2), (ob2, ob1)] else []

/-- Apply a handler effect to one recorded invocation `(receiver, argument)`. -/
def apply_handler (hnd : Game2D α → GameObject α → GameObject α → Game2D α)
    (s : Game2D α) (e : GameObject α × GameObject α) : Game2D α :=
  hnd s e.1 e.2

/-- One run of `calculate_collisions` in which the engine-visible effect of
`ob.on_collision(other)` is `hnd state ob other`, producing the final state
and the invocation log.  Bucket lists and the matrix row are read from the
current state at each layer pair, as in the source. -/
def calculate_collisions_eff (hnd : Game2D α → GameObject α → GameObject α → Game2D α)
    (st : Game2D α) : Game2D α × List (GameObject α × GameObject α) :=
  layerPairs.foldl (fun acc p =>
    if collision_enabled_between_layers acc.1.collision_matrix p.1 p.2 then
      (get_entities_by_collision_layer acc.1 p.1).foldl (fun acc1 ob1 =>
        (get_entities_by_collision_layer acc.1 p.2).foldl (fun acc2 ob2 =>
          if hitCond ob1 ob2 then
            (hnd (hnd acc2.1 ob1 ob2) ob2 ob1, acc2.2 ++ [(ob1, ob2), (ob2, ob1)])
          else acc2) acc1) acc
    else acc) (st, [])

/-- A handler effect that touches neither the three registries nor the
matrix (it may flip `active` flags and enqueue removals) — the discipline a
deferred-safe `on_collision` body obeys. -/
def RegistryPreserving (hnd : Game2D α → GameObject α → GameObject α → Game2D α) : Prop :=
  ∀ (s : Game2D α) (o1 o2 : GameObject α),
    (hnd s o1 o2).entities = s.entities ∧ (hnd s o1 o2).drawables = s.drawables ∧
    (hnd s o1 o2).buckets = s.buckets ∧ (hnd s o1 o2).collision_matrix = s.collision_matrix

/-- Two states agreeing on the three registries and the matrix. -/
def RegEq (s t : Game2D α) : Prop :=
  s.entities = t.entities ∧ s.drawables = t.drawables ∧ s.buckets = t.buckets ∧
    s.collision_matrix = t.collision_matrix

theorem regEq_trans {s t u : Game2D α} (h1 : RegEq s t) (h2 : RegEq t u) : RegEq s u :=
  ⟨h1.1.trans h2.1, h1.2.1.trans h2.2.1, h1.2.2.1.trans h2.2.2.1, h1.2.2.2.trans h2.2.2.2⟩

theorem get_entities_congr {s t : Game2D α} (h : s.buckets = t.buckets) (l : ℤ) :
    get_entities_by_collision_layer s l = get_entities_by_collision_layer t l := by
  unfold get_entities_by_collision_layer
  rw [h]

theorem foldl_apply_regEq {hnd : Game2D α → GameObject α → GameObject α → Game2D α}
    (hR : RegistryPreserving hnd) :
    ∀ (es : List (GameObject α × GameObject α)) (s : Game2D α),
      RegEq (es.foldl (apply_handler hnd) s) s := by
  intro es
  induction es with
  | nil => exact fun s => ⟨rfl, rfl, rfl, rfl⟩
  | cons e t ih =>
    intro s
    rw [List.foldl_cons]
    exact regEq_trans (ih (apply_handler hnd s e)) (hR s e.1 e.2)

theorem eff_inner {hnd : Game2D α → GameObject α → GameObject α → Game2D α}
    (ob1 : GameObject α) :
    ∀ (l2 : List (GameObject α)) (acc : Game2D α × List (GameObject α × GameObject α)),
      l2.foldl (fun acc2 ob2 =>
          if hitCond ob1 ob2 then
            (hnd (hnd acc2.1 ob1 ob2) ob2 ob1, acc2.2 ++ [(ob1, ob2), (ob2, ob1)])
          else acc2) acc =
        ((innerEv ob1 l2).foldl (apply_handler hnd) acc.1, acc.2 ++ innerEv ob1 l2) := by
  intro l2
  induction l2 with
  | nil => intro acc; simp [innerEv]
  | cons o2 t ih =>
    intro acc
    rw [List.foldl_cons]
    by_cases hP : hitCond ob1 o2
    · rw [if_pos hP, ih]
      unfold innerEv
      rw [List.flatMap_cons, if_pos hP]
      simp [apply_handler, List.append_assoc]
    · rw [if_neg hP, ih]
      unfold innerEv
      rw [List.flatMap_cons, if_neg hP]
      simp

theorem eff_outer {hnd : Game2D α → GameObject α → GameObject α → Game2D α}
    (l2 : List (GameObject α)) :
    ∀ (l1 : List (GameObject α)) (acc : Game2D α × List (GameObject α × GameObject α)),
      l1.foldl (fun acc1 ob1 =>
          l2.foldl (fun acc2 ob2 =>
            if hitCond ob1 ob2 then
              (hnd (hnd acc2.1 ob1 ob2) ob2 ob1, acc2.2 ++ [(ob1, ob2), (ob2, ob1)])
            else acc2) acc1) acc =
        ((l1.flatMap fun ob1 => innerEv ob1 l2).foldl (apply_handler hnd) acc.1,
          acc.2 ++ (l1.flatMap fun ob1 => innerEv ob1 l2)) := by
  intro l1
  induction l1 with
  | nil => intro acc; simp
  | cons ob1 t ih =>
    intro acc
    rw [List.foldl_cons, eff_inner ob1 l2 acc, ih, List.flatMap_cons, List.foldl_append]
    simp [List.append_assoc]

theorem pairEvents_inner (st : Game2D α) (p : ℕ × ℕ) :
    pairEvents st p =
      if collision_enabled_between_layers st.collision_matrix p.1 p.2 then
        (get_entities_by_collision_layer st p.1).flatMap fun ob1 =>
          innerEv ob1 (get_entities_by_collision_layer st p.2)
      else [] := rfl

/-- The effectful sweep with a registry-preserving handler produces exactly
the pure invocation log, and its final state is the fold of the handler over
that log. -/
theorem eff_spec {hnd : Game2D α → GameObject α → GameObject α → Game2D α}
    (hR : RegistryPreserving hnd) (st : Game2D α) :
    calculate_collisions_eff hnd st =
      ((calculate_collisions_events st).foldl (apply_handler hnd) st,
        calculate_collisions_events st) := by
  have main : ∀ (ps : List (ℕ × ℕ)) (acc : Game2D α × List (GameObject α × GameObject α)),
      RegEq acc.1 st →
      ps.foldl (fun acc p =>
        if collision_enabled_between_layers acc.1.collision_matrix p.1 p.2 then
          (get_entities_by_collision_layer acc.1 p.1).foldl (fun acc1 ob1 =>
            (get_entities_by_collision_layer acc.1 p.2).foldl (fun acc2 ob2 =>
              if hitCond ob1 ob2 then
                (hnd (hnd acc2.1 ob1 ob2) ob2 ob1, acc2.2 ++ [(ob1, ob2), (ob2, ob1)])
              else acc2) acc1) acc
        else acc) acc =
      ((ps.flatMap (pairEvents st)).foldl (apply_handler hnd) acc.1,
        acc.2 ++ ps.flatMap (pairEvents st)) := by
    intro ps
    induction ps with
    | nil => intro acc hacc; simp
    | cons p pt ih =>
      intro acc hacc
      rw [List.foldl_cons]
      have hstep : (if collision_enabled_between_layers acc.1.collision_matrix p.1 p.2 then
          (get_entities_by_collision_layer acc.1 p.1).foldl (fun acc1 ob1 =>
            (get_entities_by_collision_layer acc.1 p.2).foldl (fun acc2 ob2 =>
              if hitCond ob1 ob2 then
                (hnd (hnd acc2.1 ob1 ob2) ob2 ob1, acc2.2 ++ [(ob1, ob2), (ob2, ob1)])
              else acc2) acc1) acc
        else acc) =
          ((pairEvents st p).foldl (apply_handler hnd) acc.1, acc.2 ++ pairEvents st p) := by
        rw [hacc.2.2.2, get_entities_congr hacc.2.2.1, get_entities_congr hacc.2.2.1,
          pairEvents_inner]
        rcases hen : collision_enabled_between_layers st.collision_matrix p.1 p.2 with _ | _
        · simp
        · rw [if_pos rfl, if_pos rfl]
          exact eff_outer _ _ acc
      rw [hstep, ih]
      · rw [List.flatMap_cons, List.foldl_append]
        simp [List.append_assoc]
      · exact regEq_trans (foldl_apply_regEq hR _ _) hacc
  have h0 : RegEq (st, ([] : List (GameObject α × GameObject α))).1 st :=
    ⟨rfl, rfl, rfl, rfl⟩
  unfold calculate_collisions_eff
  rw [main layerPairs (st, []) h0]
  rfl

/-- The engine-visible effect of an `on_collision` body that calls
`remove_game_object` on `g` whenever `g` is the receiver (all other
receivers' handlers are engine no-ops). -/
def self_removal_handler (g : GameObject α) :
    Game2D α → GameObject α → GameObject α → Game2D α :=
  fun s o1 _ => if o1 = g then remove_game_object s g else s

theorem self_removal_registryPreserving (g : GameObject α) :
    RegistryPreserving (self_removal_handler g) := by
  intro s o1 o2
  unfold self_removal_handler
  split <;> exact ⟨rfl, rfl, rfl, rfl⟩

/-- The object has been flagged for removal: it and its drawable are
inactive and it sits in the pending-removal queue. -/
def flaggedRemoved (st : Game2D α) (g : GameObject α) : Prop :=
  st.objActive g.id = false ∧ st.drwActive g.drawable.id = false ∧
    g ∈ st.game_objects_to_remove

theorem flagged_after_remove (s : Game2D α) (g : GameObject α) :
    flaggedRemoved (remove_game_object s g) g := by
  refine ⟨?_, ?_, ?_⟩
  · simp [remove_game_object, set_active_game_object]
  · simp [remove_game_object, set_active_game_object]
  · exact List.mem_append_right _ (List.mem_singleton.mpr rfl)

theorem flagged_preserved {s : Game2D α} {g : GameObject α}
    (h : flaggedRemoved s g) (e : GameObject α × GameObject α) :
    flaggedRemoved (apply_handler (self_removal_handler g) s e) g := by
  unfold apply_handler self_removal_handler
  split
  · exact flagged_after_remove s g
  · exact h

theorem flagged_preserved_foldl {g : GameObject α} :
    ∀ (es : List (GameObject α × GameObject α)) (s : Game2D α), flaggedRemoved s g →
      flaggedRemoved (es.foldl (apply_handler (self_removal_handler g)) s) g := by
  intro es
  induction es with
  | nil => exact fun s h => h
  | cons e t ih =>
    intro s h
    rw [List.foldl_cons]
    exact ih _ (flagged_preserved h e)

theorem flagged_after_foldl {g : GameObject α} :
    ∀ (es : List (GameObject α × GameObject α)) (s : Game2D α),
      (∃ x, (g, x) ∈ es) →
      flaggedRemoved (es.foldl (apply_handler (self_removal_handler g)) s) g := by
  intro es
  induction es with
  | nil => rintro s ⟨x, hx⟩; simp at hx
  | cons e t ih =>
    rintro s ⟨x, hx⟩
    rw [List.foldl_cons]
    by_cases he : e.1 = g
    · apply flagged_preserved_foldl
      unfold apply_handler self_removal_handler
      rw [if_pos he]
      exact flagged_after_remove s g
    · rcases List.mem_cons.mp hx with heq | hmem
      · exact absurd (congrArg Prod.fst heq.symm) he
      · exact ih _ ⟨x, hmem⟩

theorem removalSafe_regEq {s t : Game2D α} {g : GameObject α}
    (h : RegEq s t) (hsafe : removalSafe t g) : removalSafe s g := by
  unfold removalSafe at hsafe ⊢
  rw [h.1, h.2.1, h.2.2.1]
  exact hsafe

/-- C3: when `g`'s `on_collision` enqueues `g`'s own removal, the sweep's
invocation log is exactly the pure one (so `g` still receives every callback
of the sweep, including those after the first removal request); afterwards
the three registries are unchanged (so `g` is still registered everywhere),
`g` and its drawable are inactive and `g` is queued (provided it was invoked
at least once); and the end-of-frame flush then removes `g` from all three
registries, so it is absent from the start of the next frame on. -/
theorem self_removal_during_sweep (st : Game2D α) (g : GameObject α) :
    (calculate_collisions_eff (self_removal_handler g) st).2 =
      calculate_collisions_events st ∧
    RegEq (calculate_collisions_eff (self_removal_handler g) st).1 st ∧
    ((∃ x, (g, x) ∈ calculate_collisions_events st) →
      flaggedRemoved (calculate_collisions_eff (self_removal_handler g) st).1 g) ∧
    ((∃ x, (g, x) ∈ calculate_collisions_events st) → removalSafe st g →
      ∀ st'', flush_removals (calculate_collisions_eff (self_removal_handler g) st).1 =
        some st'' → goneFrom st'' g) := by
  have hR := self_removal_registryPreserving g
  have hspec := eff_spec hR st
  refine ⟨by rw [hspec], ?_, ?_, ?_⟩
  · rw [hspec]
    exact foldl_apply_regEq hR _ _
  · intro hex
    rw [hspec]
    exact flagged_after_foldl _ _ hex
  · intro hex hsafe st'' hfl
    rw [hspec] at hfl
    have hflag := flagged_after_foldl (g := g) (calculate_collisions_events st) st hex
    refine flush_removes hflag.2.2 ?_ hfl
    exact removalSafe_regEq (foldl_apply_regEq hR _ _) hsafe

set_option maxRecDepth 10000 in
/-- Witness for C3 at concrete inputs: in `demoState`, `dA`'s handler
enqueues its own removal; the log is unchanged, `dA` stays registered but
inactive and queued, and the flush then removes it everywhere. -/
theorem self_removal_during_sweep_witness :
    (calculate_collisions_eff (self_removal_handler dA) demoState).2 =
      calculate_collisions_events demoState ∧
    (calculate_collisions_eff (self_removal_handler dA) demoState).1.objActive dA.id =
      false ∧
    dA ∈ (calculate_collisions_eff (self_removal_handler dA) demoState).1.entities ∧
    dA ∈ (calculate_collisions_eff (self_removal_handler dA) demoState).1.game_objects_to_remove ∧
    (∃ st'', flush_removals (calculate_collisions_eff (self_removal_handler dA) demoState).1 =
      some st'' ∧ goneFrom st'' dA) := by
  have hthm := self_removal_during_sweep demoState dA
  have hex : ∃ x, (dA, x) ∈ calculate_collisions_events demoState := ⟨dB, by decide⟩
  refine ⟨hthm.1, (hthm.2.2.1 hex).1, ?_, (hthm.2.2.1 hex).2.2, ?_⟩
  · rw [hthm.2.1.1]
    decide
  · rcases hfl : flush_removals (calculate_collisions_eff (self_removal_handler dA)
        demoState).1 with _ | st''
    · have hs : (flush_removals (calculate_collisions_eff (self_removal_handler dA)
          demoState).1).isSome = true := by decide
      rw [hfl] at hs
      simp at hs
    · exact ⟨st'', rfl, hthm.2.2.2 hex (by decide) st'' hfl⟩

/-! ## Claim C9: the sentinel layer `-1` -/

/-- The object sits in no collision-layer bucket. -/
def notInAnyBucket (st : Game2D α) (g : GameObject α) : Prop :=
  ∀ p ∈ st.buckets, g ∉ p.2

instance (st : Game2D α) (g : GameObject α) : Decidable (notInAnyBucket st g) := by
  unfold notInAnyBucket; infer_instance

/-- An object in no bucket neither receives nor is passed to any
`on_collision` callback of the sweep. -/
theorem not_in_bucket_no_events {st : Game2D α} {g : GameObject α}
    (hnb : notInAnyBucket st g) (x : GameObject α) :
    (g, x) ∉ calculate_collisions_events st ∧
      (x, g) ∉ calculate_collisions_events st := by
  have hbase : ∀ l : ℤ, g ∉ get_entities_by_collision_layer st l := by
    intro l hmem
    obtain ⟨xs, hlk, hmem2⟩ := mem_get_entities hmem
    exact hnb _ (lookup_mem hlk) hmem2
  constructor
  · intro hmem
    obtain ⟨i, j, _, _, _, hor⟩ := mem_events hmem
    rcases hor with ⟨h1, _⟩ | ⟨_, h2⟩
    · exact hbase _ h1
    · exact hbase _ h2
  · intro hmem
    obtain ⟨i, j, _, _, _, hor⟩ := mem_events hmem
    rcases hor with ⟨_, h2⟩ | ⟨h1, _⟩
    · exact hbase _ h2
    · exact hbase _ h1

theorem not_mem_bucketAppend {bs : List (ℤ × List (GameObject α))} {g h : GameObject α}
    (hnb : ∀ p ∈ bs, g ∉ p.2) (hne : g ≠ h) (l : ℤ) :
    ∀ p ∈ bucketAppend bs l h, g ∉ p.2 := by
  intro p hp
  unfold bucketAppend at hp
  rcases hlk : bs.lookup l with _ | xs
  · rw [hlk] at hp
    rcases List.mem_append.mp hp with hp' | hp'
    · exact hnb p hp'
    · have : p = (l, [h]) := by simpa using hp'
      rw [this]
      simp [hne]
  · rw [hlk] at hp
    obtain ⟨q, hq, rfl⟩ := List.mem_map.mp hp
    by_cases hq1 : q.1 = l
    · rw [if_pos hq1]
      intro hc
      rcases List.mem_append.mp hc with hc' | hc'
      · exact hnb q hq hc'
      · exact hne (by simpa using hc')
    · rw [if_neg hq1]
      exact hnb q hq

theorem notInAnyBucket_remove_now {st st' : Game2D α} {g h : GameObject α}
    (hnb : notInAnyBucket st g) (hrem : remove_game_object_now st h = some st') :
    notInAnyBucket st' g := by
  rcases buckets_after_remove_now hrem with hb | hb
  · intro p hp
    rw [hb] at hp
    exact hnb p hp
  · intro p hp
    rw [hb] at hp
    unfold bucketRemove at hp
    obtain ⟨q, hq, rfl⟩ := List.mem_map.mp hp
    by_cases hq1 : q.1 = h.collision_layer
    · rw [if_pos hq1]
      exact fun hc => hnb q hq (List.mem_of_mem_erase hc)
    · rw [if_neg hq1]
      exact hnb q hq

theorem notInAnyBucket_flush_aux {g : GameObject α} :
    ∀ (q : List (GameObject α)) (st st' : Game2D α), notInAnyBucket st g →
      flush_removals_aux q st = some st' → notInAnyBucket st' g := by
  intro q
  induction q with
  | nil =>
    intro st st' hnb hfl
    obtain rfl := Option.some_inj.mp hfl
    exact hnb
  | cons h t ih =>
    intro st st' hnb hfl
    unfold flush_removals_aux at hfl
    rcases hrem : remove_game_object_now st h with _ | st1
    · rw [hrem] at hfl; exact absurd hfl (by simp)
    · rw [hrem] at hfl
      exact ih st1 st' (notInAnyBucket_remove_now hnb hrem) hfl

/-- C9: an object whose collision layer is the sentinel `-1` is never placed
in any bucket by `add_game_object` (the buckets are untouched), and while it
is in no bucket the sweep neither invokes `on_collision` on it nor passes it
to any other object's `on_collision`; and being in no bucket is preserved by
every engine registry operation (adding/removing entities, drawables and
other game objects, deferred removal, immediate removal, and the
end-of-frame flush). -/
theorem sentinel_layer_invariant (st : Game2D α) (g : GameObject α)
    (hg : g.collision_layer = -1) :
    (add_game_object st g).buckets = st.buckets ∧
    (notInAnyBucket st g →
      (∀ x : GameObject α, (g, x) ∉ calculate_collisions_events st ∧
        (x, g) ∉ calculate_collisions_events st) ∧
      (∀ h : GameObject α, h ≠ g → notInAnyBucket (add_game_object st h) g) ∧
      (∀ h : GameObject α, notInAnyBucket (add_entity st h) g) ∧
      (∀ d : DrawableM α, notInAnyBucket (add_drawable st d) g) ∧
      (∀ h : GameObject α, notInAnyBucket (remove_entity st h) g) ∧
      (∀ d : DrawableM α, notInAnyBucket (remove_drawable st d) g) ∧
      (∀ h : GameObject α, notInAnyBucket (remove_game_object st h) g) ∧
      (∀ (h : GameObject α) (st' : Game2D α),
        remove_game_object_now st h = some st' → notInAnyBucket st' g) ∧
      (∀ st' : Game2D α, flush_removals st = some st' → notInAnyBucket st' g)) := by
  constructor
  · unfold add_game_object add_game_object_to_collision_layer
    rw [if_neg (by omega)]
    rfl
  · intro hnb
    refine ⟨not_in_bucket_no_events hnb, ?_, fun h => hnb, fun d => hnb, ?_, ?_,
      fun h => hnb, fun h st' hrem => notInAnyBucket_remove_now hnb hrem, ?_⟩
    · intro h hne
      unfold add_game_object add_game_object_to_collision_layer
      by_cases hl : 0 ≤ h.collision_layer
      · rw [if_pos hl]
        unfold add_game_object_to_collision_layer_raw
        intro p hp
        exact not_mem_bucketAppend hnb (Ne.symm hne) h.collision_layer p hp
      · rw [if_neg hl]
        exact hnb
    · intro h p hp
      rw [buckets_remove_entity] at hp
      exact hnb p hp
    · intro d p hp
      rw [buckets_remove_drawable] at hp
      exact hnb p hp
    · intro st' hfl
      unfold flush_removals at hfl
      rcases haux : flush_removals_aux st.game_objects_to_remove st with _ | st1
      · rw [haux] at hfl; exact absurd hfl (by simp)
      · rw [haux] at hfl
        have hst' := Option.some_inj.mp hfl
        rw [← hst']
        exact notInAnyBucket_flush_aux st.game_objects_to_remove st st1 hnb haux

/-- A demo object carrying the sentinel collision layer `-1` (and a collider
overlapping `dA`, to show that geometry alone triggers nothing). -/
def gS : GameObject ℤ := ⟨7, ⟨107, ⟨0, 0⟩, ⟨2, 2⟩⟩, -1⟩

/-- Witness for C9 at concrete inputs: on `demoState`, the sentinel object
`gS` lands in no bucket and every engine operation keeps it out of all
buckets; the sweep never involves it. -/
theorem sentinel_layer_invariant_witness :
    (add_game_object demoState gS).buckets = demoState.buckets ∧
    ((gS, dA) ∉ calculate_collisions_events demoState ∧
      (dA, gS) ∉ calculate_collisions_events demoState) ∧
    notInAnyBucket (add_game_object demoState dC) gS ∧
    notInAnyBucket (add_entity demoState dC) gS ∧
    notInAnyBucket (add_drawable demoState dC.drawable) gS ∧
    notInAnyBucket (remove_entity demoState dA) gS ∧
    notInAnyBucket (remove_drawable demoState dA.drawable) gS ∧
    notInAnyBucket (remove_game_object demoState dA) gS ∧
    (∃ st', remove_game_object_now demoState dA = some st' ∧ notInAnyBucket st' gS) ∧
    (∃ st', flush_removals demoState = some st' ∧ notInAnyBucket st' gS) := by
  have hthm := sentinel_layer_invariant demoState gS (by decide)
  have hnb : notInAnyBucket demoState gS := by decide
  have hparts := hthm.2 hnb
  refine ⟨hthm.1, hparts.1 dA, hparts.2.1 dC (by decide), hparts.2.2.1 dC,
    hparts.2.2.2.1 dC.drawable, hparts.2.2.2.2.1 dA, hparts.2.2.2.2.2.1 dA.drawable,
    hparts.2.2.2.2.2.2.1 dA, ?_, ?_⟩
  · rcases hrem : remove_game_object_now demoState dA with _ | st'
    · have hs : (remove_game_object_now demoState dA).isSome = true := by decide
      rw [hrem] at hs
      simp at hs
    · exact ⟨st', rfl, hparts.2.2.2.2.2.2.2.1 dA st' hrem⟩
  · rcases hfl : flush_removals demoState with _ | st'
    · have hs : (flush_removals demoState).isSome = true := by decide
      rw [hfl] at hs
      simp at hs
    · exact ⟨st', rfl, hparts.2.2.2.2.2.2.2.2 st' hfl⟩

end Pyleob
